import Mathlib

/-!
# dyn-mc-server: the dispatch worker and its DNS server

A shallow embedding of `internal/dns/server.go` and `internal/dispatch/worker.go`.

Modelling conventions.
* A Go `map[K]V` is an association list (`GoMap`) read with `mapGet`, written with
  `mapSet` and `mapDel`; `mapSet` keeps one entry per key.
* A Go `string` is a sequence of bytes and is represented byte for byte: every `Char` of
  the Lean `String` stands for one byte of the Go string.  So `len(s)` is `s.length`,
  `s[:n]` is `sliceTo s n` and `s[len(s)-1]` is `lastByte s`, all three counting bytes
  as Go does.  ASCII text is represented by itself (`utf8ByteSize_of_ascii`); a character
  outside ASCII is represented by the bytes of its UTF-8 encoding, one `Char` each, as in
  `"ex\xc3\xa4mple.com"` for the eleven-character, twelve-byte name with an a-umlaut
  (`dnsHandler_counts_bytes`).
* A Go `error` is an `Option String` (`none` is `nil`); a run-time panic is the outer
  `none` of a function returning `Option`.
* `time.Time` and `time.Duration` are integers counting nanoseconds.
-/

namespace DynMc

/-! ## Go maps and strings -/

/-- A Go map as an association list. -/
abbrev GoMap (κ β : Type) := List (κ × β)

/-- The lookup `m[k]`, with `none` for an absent key. -/
def mapGet {κ β : Type} [DecidableEq κ] : GoMap κ β → κ → Option β
  | [], _ => none
  | (k', v) :: rest, k => if k' = k then some v else mapGet rest k

/-- The builtin `delete(m, k)`. -/
def mapDel {κ β : Type} [DecidableEq κ] : GoMap κ β → κ → GoMap κ β
  | [], _ => []
  | (k', v) :: rest, k => if k' = k then mapDel rest k else (k', v) :: mapDel rest k

/-- The assignment `m[k] = v`. -/
def mapSet {κ β : Type} [DecidableEq κ] (m : GoMap κ β) (k : κ) (v : β) : GoMap κ β :=
  (k, v) :: mapDel m k

/-- The keys a `range` over the map visits. -/
def mapKeys {κ β : Type} (m : GoMap κ β) : List κ := m.map Prod.fst

/-- The byte `s[len(s)-1]`; `none` stands for the index-out-of-range panic on `""`. -/
def lastByte (s : String) : Option Char := s.data.getLast?

/-- The slice `s[:n]`, the first `n` bytes of `s` (one `Char` per byte). -/
def sliceTo (s : String) (n : Nat) : String := ⟨s.data.take n⟩

/-- Index of the first `c` in `s` (`bytealg.IndexByteString`), `none` for `-1`. -/
def indexByte : List Char → Char → Option Nat
  | [], _ => none
  | x :: xs, c => if x = c then some 0 else (indexByte xs c).map (· + 1)

/-- Index of the last `c` in `s` (`bytealg.LastIndexByteString`), `none` for `-1`. -/
def lastIndexByte : List Char → Char → Option Nat
  | [], _ => none
  | x :: xs, c =>
    match lastIndexByte xs c with
    | some i => some (i + 1)
    | none => if x = c then some 0 else none

/-- The formatting verb `%d` of `fmt.Sprintf`. -/
def fmtInt (i : Int) : String := toString i

/-! ## Library functions used by the DNS handler -/

/-- Go's `net.SplitHostPort`, following the standard library source; `none` is any of
its address errors. -/
def SplitHostPort (hostport : String) : Option (String × String) :=
  let hp := hostport.data
  match lastIndexByte hp ':' with
  | none => none
  | some i =>
    let bracketed : Option (List Char × Nat × Nat) :=
      if hp.head? = some '[' then
        match indexByte hp ']' with
        | none => none
        | some stop =>
          if stop + 1 = hp.length then none
          else if stop + 1 = i then some ((hp.take stop).drop 1, 1, stop + 1)
          else none
      else
        let host := hp.take i
        if (indexByte host ':').isSome then none else some (host, 0, 0)
    match bracketed with
    | none => none
    | some (host, j, k) =>
      if (indexByte (hp.drop j) '[').isSome then none
      else if (indexByte (hp.drop k) ']').isSome then none
      else some (⟨host⟩, ⟨hp.drop (i + 1)⟩)

/-- Value of a decimal digit, `none` for any other character. -/
def digitVal (c : Char) : Option Nat :=
  if 48 ≤ c.toNat ∧ c.toNat ≤ 57 then some (c.toNat - 48) else none

/-- The digit loop of `strconv.Atoi`: `n = n*10 + int(ch)`, failing on a non-digit. -/
def parseDigits : List Char → Nat → Option Nat
  | [], n => some n
  | c :: cs, n =>
    match digitVal c with
    | none => none
    | some d => parseDigits cs (n * 10 + d)

/-- The value `strconv.Atoi` returns when its error is discarded (`intport, _ :=`), on a
64-bit platform: the parsed number, `0` after a syntax error, and the nearest `int64`
bound after a range error. -/
def Atoi (s : String) : Int :=
  let signed : Bool := s.data.head? = some '-' ∨ s.data.head? = some '+'
  let body : List Char := if signed then s.data.tail else s.data
  let neg : Bool := s.data.head? = some '-'
  if body = [] then 0
  else
    match parseDigits body 0 with
    | none => 0
    | some n =>
      let v : Int := if neg then -(n : Int) else (n : Int)
      if v > 9223372036854775807 then 9223372036854775807
      else if v < -9223372036854775808 then -9223372036854775808
      else v

/-! ## `internal/dns/server.go` -/

/-- The struct `DnsServer` (the listener `ns` is left out). -/
structure DnsServer where
  ttl : Int
  rootDomain : String
  srvRecords : GoMap String String
  aRecords : GoMap String String

/-- `NewDnsServer`: appends the trailing dot to the root domain when it lacks one.
Indexing the empty root domain panics. -/
def NewDnsServer (ttl : Int) (rootDomain : String) : Option DnsServer :=
  match lastByte rootDomain with
  | none => none
  | some c =>
    some { ttl := ttl
           rootDomain := if c ≠ '.' then rootDomain ++ "." else rootDomain
           srvRecords := []
           aRecords := [] }

def DnsServer.AddServiceRecord (s : DnsServer) (serviceName record : String) : DnsServer :=
  { s with srvRecords := mapSet s.srvRecords serviceName record }

def DnsServer.RemoveServiceRecord (s : DnsServer) (serviceName : String) : DnsServer :=
  { s with srvRecords := mapDel s.srvRecords serviceName }

def DnsServer.AddARecord (s : DnsServer) (name ip : String) : DnsServer :=
  { s with aRecords := mapSet s.aRecords name ip }

def DnsServer.RemoveARecord (s : DnsServer) (name : String) : DnsServer :=
  { s with aRecords := mapDel s.aRecords name }

/-- The `dns.Question` of the DNS library. -/
structure Question where
  Name : String
  Qtype : Nat
  Qclass : Nat
deriving DecidableEq

/-- The `dns.RR_Header` of the DNS library. -/
structure RR_Header where
  Name : String
  Rrtype : Nat
  Class : Nat
  Ttl : Nat
deriving DecidableEq

/-- The resource records the handler builds: `dns.SRV` and `dns.A`.  The payload of an
`A` record is whatever `net.ParseIP` makes of the stored text. -/
inductive RR (ι : Type) where
  | SRV (Hdr : RR_Header) (Priority Weight Port : Nat) (Target : String)
  | A (Hdr : RR_Header) (A : ι)
deriving DecidableEq

/-- The part of the reply `dns.Msg` the handler sets. -/
structure Msg (ι : Type) where
  Rcode : Nat
  Question : List Question
  Answer : List (RR ι)
deriving DecidableEq

def TypeA : Nat := 1
def TypeSRV : Nat := 33
def ClassINET : Nat := 1
def RcodeSuccess : Nat := 0
def RcodeServerFailure : Nat := 2
def RcodeNameError : Nat := 3

/-- The method `SetReply` of `dns.Msg`: success code, the first question copied, no
answers. -/
def SetReply {ι : Type} (r : List Question) : Msg ι :=
  { Rcode := RcodeSuccess, Question := r.take 1, Answer := [] }

/-- The table key `dnsHandler` derives from a queried name that is longer than the root
domain (lines 54-59): dot-terminate the name, then cut `len(rootDomain)+1` bytes off its
end.  Both lengths are byte counts, the strings holding one `Char` per byte. -/
def recordKey (s : DnsServer) (name : String) : String :=
  let recordName := if lastByte name ≠ some '.' then name ++ "." else name
  sliceTo recordName (recordName.length - s.rootDomain.length - 1)

/-- `DnsServer.dnsHandler`: the message passed to `WriteMsg` for the request with
questions `r`.  `ParseIP` is `net.ParseIP`.  The length test of line 48 compares byte
counts, the strings holding one `Char` per byte.  The outer `none` is the panic of
`host[len(host)-1]` on an empty host. -/
def DnsServer.dnsHandler {ι : Type} (ParseIP : String → ι) (s : DnsServer)
    (r : List Question) : Option (Msg ι) :=
  let m : Msg ι := SetReply r
  match r with
  | [q] =>
    if q.Name.length ≤ s.rootDomain.length then
      some { m with Rcode := RcodeNameError }
    else
      let recordName := recordKey s q.Name
      if q.Qtype = TypeSRV then
        match mapGet s.srvRecords recordName with
        | none => some { m with Rcode := RcodeNameError }
        | some serviceRecord =>
          match SplitHostPort serviceRecord with
          | none => some { m with Rcode := RcodeServerFailure }
          | some (host, port) =>
            match lastByte host with
            | none => none
            | some c =>
              let host := if c ≠ '.' then host ++ "." else host
              let intport := Atoi port
              let srv : RR ι := RR.SRV
                { Name := q.Name, Rrtype := TypeSRV, Class := ClassINET,
                  Ttl := (s.ttl % 4294967296).toNat }
                10 10 (intport % 65536).toNat host
              some { m with Answer := m.Answer ++ [srv] }
      else if q.Qtype = TypeA then
        match mapGet s.aRecords recordName with
        | none => some { m with Rcode := RcodeNameError }
        | some ip =>
          let a : RR ι := RR.A
            { Name := q.Name, Rrtype := TypeA, Class := ClassINET,
              Ttl := (s.ttl % 4294967296).toNat }
            (ParseIP ip)
          some { m with Answer := m.Answer ++ [a] }
      else some { m with Rcode := RcodeNameError }
  | _ => some { m with Rcode := RcodeNameError }

/-! ## `internal/vm/provider.go` -/

def VM_STATUS_RUNNING : Int := 0
def VM_STATUS_STOPPING : Int := 1
def VM_STATUS_STOPPED : Int := 2
def VM_STATUS_STARTING : Int := 3

/-- The struct `VmStatus`. -/
structure VmStatus where
  Status : Int
  Ip : String
deriving DecidableEq

/-- The interface `VmProvider`, as a machine over a state `σ` the worker cannot see:
every call returns its result together with the provider's next state, so a provider may
answer the same call differently each time. -/
structure VmProvider (σ : Type) where
  state : σ
  start : σ → Option String × σ
  stop : σ → Option String × σ
  getStatus : σ → Except String VmStatus × σ

def VmProvider.Start {σ : Type} (p : VmProvider σ) : Option String × VmProvider σ :=
  ((p.start p.state).1, { p with state := (p.start p.state).2 })

def VmProvider.Stop {σ : Type} (p : VmProvider σ) : Option String × VmProvider σ :=
  ((p.stop p.state).1, { p with state := (p.stop p.state).2 })

def VmProvider.GetStatus {σ : Type} (p : VmProvider σ) :
    Except String VmStatus × VmProvider σ :=
  ((p.getStatus p.state).1, { p with state := (p.getStatus p.state).2 })

/-! ## `internal/dispatch/worker.go` -/

/-- Instants and durations, in nanoseconds. -/
abbrev Time := Int

def Second : Int := 1000000000
def Minute : Int := 60 * Second

/-- The wall clock: `clock 0` is what the next `time.Now()` returns, `clock 1` the one
after it, and so on. -/
abbrev Clock := Nat → Time

/-- The clock after one reading. -/
def Clock.next (c : Clock) : Clock := fun n => c (n + 1)

/-- The struct `FakeMcServer`, reduced to the port it listens on (the descriptor and kick
texts play no part in the worker's decisions). -/
structure FakeMcServer where
  port : Int
deriving DecidableEq

/-- The struct `DispatchWorkerOptions`. -/
structure DispatchWorkerOptions where
  DnsTtl : Int
  RootDomain : String
  StartPort : Int
  EndPort : Int
  PublicIp : String
deriving DecidableEq

/-- The struct `MCServerInfo`.  `quit` records whether the channel has been closed;
`lastLogin` is the variable of that name captured by the `OnLogin` closure `AddServer`
installs. -/
structure MCServerInfo (σ : Type) where
  Name : String
  SubDomain : String
  Port : Int
  VM : VmProvider σ
  fakeMcServer : FakeMcServer
  lastActivity : Time
  quit : Bool
  lastLogin : Time

/-- The struct `DispatchWorker`, with the clock the worker reads. -/
structure DispatchWorker (σ : Type) where
  dnsServer : DnsServer
  serverMap : GoMap String (MCServerInfo σ)
  options : DispatchWorkerOptions
  fakeMcServers : GoMap Int FakeMcServer
  clock : Clock

def GetMinecraftSrvRecord (name : String) : String := "_minecraft._tcp." ++ name

/-- `NewDispatchWorker`: `fakeMcServers` is left at its zero value, the nil map. -/
def NewDispatchWorker {σ : Type} (options : DispatchWorkerOptions) (clock : Clock) :
    Option (DispatchWorker σ) :=
  match NewDnsServer options.DnsTtl options.RootDomain with
  | none => none
  | some d =>
    some { dnsServer := d, serverMap := [], options := options, fakeMcServers := [],
           clock := clock }

def DispatchWorker.GetDispatchServer {σ : Type} (w : DispatchWorker σ) : String :=
  "dispatch." ++ w.options.RootDomain

def DispatchWorker.GetMcServerDomain {σ : Type} (w : DispatchWorker σ) (name : String) :
    String :=
  name ++ "." ++ w.options.RootDomain

/-- The polling loop of `StartServer` (lines 81-96), run for at most `fuel` rounds.  The
outer `none` is a loop still running when the fuel is spent; inside, `some e` is the
error `StartServer` returns from within the loop and `none` is the `break`. -/
def waitForRunning {σ : Type} (startTime : Time) :
    Nat → VmProvider σ → Clock → Option (Option String × VmProvider σ × Clock)
  | 0, _, _ => none
  | fuel + 1, vm, clock =>
    match vm.GetStatus with
    | (Except.error err, vm1) => some (some err, vm1, clock)
    | (Except.ok status1, vm1) =>
      if status1.Status = VM_STATUS_RUNNING then some (none, vm1, clock)
      else if clock 0 - startTime > 1 * Minute then
        some (some "server failed to start", vm1, clock.next)
      else waitForRunning startTime fuel vm1 clock.next

/-- The end of `StartServer` (lines 101-110): install the backend records, with the IP of
`status`, and stamp `lastActivity`. -/
def DispatchWorker.installBackend {σ : Type} (w : DispatchWorker σ) (name : String)
    (info : MCServerInfo σ) (status : VmStatus) : DispatchWorker σ :=
  let dns := w.dnsServer.AddServiceRecord (GetMinecraftSrvRecord info.SubDomain)
    (w.GetMcServerDomain info.SubDomain ++ ":" ++ fmtInt info.Port)
  let dns := dns.AddARecord info.SubDomain status.Ip
  { w with
    dnsServer := dns
    serverMap := mapSet w.serverMap name { info with lastActivity := w.clock 0 }
    clock := w.clock.next }

/-- `DispatchWorker.StartServer`.  The outer `none` is a polling loop that outlives
`fuel` rounds. -/
def DispatchWorker.StartServer {σ : Type} (fuel : Nat) (w : DispatchWorker σ)
    (name : String) : Option (Option String × DispatchWorker σ) :=
  match mapGet w.serverMap name with
  | none => some (some "server not found", w)
  | some info =>
    match info.VM.GetStatus with
    | (Except.error err, vm1) =>
      some (some err, { w with serverMap := mapSet w.serverMap name { info with VM := vm1 } })
    | (Except.ok status, vm1) =>
      if status.Status = VM_STATUS_STOPPED then
        match vm1.Start with
        | (some err, vm2) =>
          some (some err,
            { w with serverMap := mapSet w.serverMap name { info with VM := vm2 } })
        | (none, vm2) =>
          let startTime := w.clock 0
          match waitForRunning startTime fuel vm2 w.clock.next with
          | none => none
          | some (some err, vm3, clock3) =>
            some (some err,
              { w with serverMap := mapSet w.serverMap name { info with VM := vm3 }
                       clock := clock3 })
          | some (none, vm3, clock3) =>
            some (none,
              DispatchWorker.installBackend { w with clock := clock3 } name
                { info with VM := vm3 } status)
      else
        some (none, DispatchWorker.installBackend w name { info with VM := vm1 } status)

/-- `DispatchWorker.StopServer`. -/
def DispatchWorker.StopServer {σ : Type} (w : DispatchWorker σ) (name : String) :
    Option String × DispatchWorker σ :=
  match mapGet w.serverMap name with
  | none => (some "server not found", w)
  | some info =>
    match info.VM.GetStatus with
    | (Except.error err, vm1) =>
      (some err, { w with serverMap := mapSet w.serverMap name { info with VM := vm1 } })
    | (Except.ok status, vm1) =>
      let stopped : Option String × VmProvider σ :=
        if status.Status = VM_STATUS_RUNNING then vm1.Stop else (none, vm1)
      match stopped with
      | (some err, vm2) =>
        (some err, { w with serverMap := mapSet w.serverMap name { info with VM := vm2 } })
      | (none, vm2) =>
        let dns := w.dnsServer.AddServiceRecord (GetMinecraftSrvRecord info.SubDomain)
          (w.GetDispatchServer ++ ":" ++ fmtInt info.fakeMcServer.port)
        let dns := dns.RemoveARecord info.SubDomain
        (none, { w with dnsServer := dns
                        serverMap := mapSet w.serverMap name { info with VM := vm2 } })

/-- The port search of `AddServer` (lines 152-158): the first `i` from `i` upwards, at
most `n` candidates, that is not in `usedPorts`; `0`, the zero value of `port`, when the
loop ends without a `break`. -/
def findPort (usedPorts : List Int) : Nat → Int → Int
  | 0, _ => 0
  | n + 1, i => if i ∉ usedPorts then i else findPort usedPorts n (i + 1)

/-- `DispatchWorker.AddServer`.  The two goroutines that run and stop the decoy listener
are not modelled. -/
def DispatchWorker.AddServer {σ : Type} (w : DispatchWorker σ) (info : MCServerInfo σ) :
    DispatchWorker σ :=
  let usedPorts : List Int := w.fakeMcServers.map (fun e => e.2.port)
  let port := findPort usedPorts (w.options.EndPort + 1 - w.options.StartPort).toNat
    w.options.StartPort
  let dns := w.dnsServer.AddServiceRecord (GetMinecraftSrvRecord info.SubDomain)
    (w.GetDispatchServer ++ ":" ++ fmtInt port)
  let dns := dns.RemoveARecord info.Name
  let info := { info with
    lastActivity := w.clock 0
    fakeMcServer := { port := port }
    quit := false
    lastLogin := w.clock 1 }
  { w with
    dnsServer := dns
    serverMap := mapSet w.serverMap info.Name info
    clock := w.clock.next.next }

/-- The `OnLogin` closure `AddServer` installs on the decoy of endpoint `name`.  The first
component is the argument of the `StartServer` call it spawns with `go`, if any. -/
def DispatchWorker.onLogin {σ : Type} (w : DispatchWorker σ) (name : String) :
    Option String × DispatchWorker σ :=
  match mapGet w.serverMap name with
  | none => (none, w)
  | some info =>
    if w.clock 0 - info.lastLogin < 10 * Second then (none, { w with clock := w.clock.next })
    else
      (some info.Name,
        { w with serverMap := mapSet w.serverMap name { info with lastLogin := w.clock 1 }
                 clock := w.clock.next.next })

/-- The body of the loop of `checkServers` for the entry `name`.  `ping addr` tells
whether `bot.PingAndListTimeout(addr, 5s)` succeeds. -/
def DispatchWorker.checkServer {σ : Type} (ping : String → Bool) (w : DispatchWorker σ)
    (name : String) : DispatchWorker σ :=
  match mapGet w.serverMap name with
  | none => w
  | some info =>
    match info.VM.GetStatus with
    | (Except.error _, vm1) =>
      { w with serverMap := mapSet w.serverMap name { info with VM := vm1 } }
    | (Except.ok status, vm1) =>
      let w1 := { w with serverMap := mapSet w.serverMap name { info with VM := vm1 } }
      if status.Status = VM_STATUS_RUNNING then
        let w2 :=
          if w1.clock 0 - info.lastActivity > 5 * Minute then
            (DispatchWorker.StopServer { w1 with clock := w1.clock.next } name).2
          else { w1 with clock := w1.clock.next }
        if ping (status.Ip ++ ":" ++ fmtInt info.Port) then
          match mapGet w2.serverMap name with
          | none => w2
          | some info2 =>
            { w2 with serverMap := mapSet w2.serverMap name
                        { info2 with lastActivity := w2.clock 0 }
                      clock := w2.clock.next }
        else w2
      else w1

/-- `DispatchWorker.checkServers`: one pass over the registry. -/
def DispatchWorker.checkServers {σ : Type} (ping : String → Bool) (w : DispatchWorker σ) :
    DispatchWorker σ :=
  (mapKeys w.serverMap).foldl (DispatchWorker.checkServer ping) w

/-- The endpoint `RemoveServer(name)` takes out of the registry, as the call leaves it
(lines 243-245): its `quit` channel closed and its provider asked to stop, the result of
`Stop` being ignored. -/
def DispatchWorker.removedInfo {σ : Type} (w : DispatchWorker σ) (name : String) :
    Option (MCServerInfo σ) :=
  (mapGet w.serverMap name).map (fun info => { info with quit := true, VM := info.VM.Stop.2 })

/-- `DispatchWorker.RemoveServer`: the worker it leaves behind.  The removed endpoint is
`DispatchWorker.removedInfo`. -/
def DispatchWorker.RemoveServer {σ : Type} (w : DispatchWorker σ) (name : String) :
    DispatchWorker σ :=
  match mapGet w.serverMap name with
  | none => w
  | some info =>
    let dns := w.dnsServer.RemoveServiceRecord (GetMinecraftSrvRecord info.SubDomain)
    let dns := dns.RemoveARecord info.Name
    { w with dnsServer := dns, serverMap := mapDel w.serverMap name }

/-- `DispatchWorker.Start`, up to the blocking call that serves DNS. -/
def DispatchWorker.Start {σ : Type} (w : DispatchWorker σ) : DispatchWorker σ :=
  { w with dnsServer := w.dnsServer.AddARecord "dispatch" w.options.PublicIp }

/-! ## Worked examples -/

/-- State of the provider used in the worked examples. -/
structure SimVm where
  reports : List VmStatus
  stopError : Option String
  stops : Nat
deriving DecidableEq

/-- A provider that reports the given statuses in turn (the last one for ever), accepts
every `Start`, answers every `Stop` with `stopError`, and counts its `Stop` calls. -/
def simVm (reports : List VmStatus) (stopError : Option String) : VmProvider SimVm :=
  { state := { reports := reports, stopError := stopError, stops := 0 }
    start := fun s => (none, s)
    stop := fun s => (s.stopError, { s with stops := s.stops + 1 })
    getStatus := fun s =>
      match s.reports with
      | [] => (Except.error "no report", s)
      | [r] => (Except.ok r, s)
      | r :: rest => (Except.ok r, { s with reports := rest }) }

/-- Options of the worked examples: root domain `example.com`, decoy ports from
`startPort` to `endPort`. -/
def exOptions (startPort endPort : Int) : DispatchWorkerOptions :=
  { DnsTtl := 60, RootDomain := "example.com", StartPort := startPort, EndPort := endPort,
    PublicIp := "203.0.113.7" }

/-- An endpoint as `main` hands it to `AddServer`: real port 25565, the unexported fields
at their zero values. -/
def exInfo (name subDomain : String) (vm : VmProvider SimVm) : MCServerInfo SimVm :=
  { Name := name, SubDomain := subDomain, Port := 25565, VM := vm, fakeMcServer := ⟨0⟩,
    lastActivity := 0, quit := false, lastLogin := 0 }

/-- The worker `NewDispatchWorker` returns for the options of the worked examples (see
`NewDispatchWorker_example`), its clock standing at `0`. -/
def exFresh (startPort endPort : Int) : DispatchWorker SimVm :=
  { dnsServer := { ttl := 60, rootDomain := "example.com.", srvRecords := [], aRecords := [] }
    serverMap := []
    options := exOptions startPort endPort
    fakeMcServers := []
    clock := fun _ => 0 }

/-- A fresh worker after `AddServer` on each of `infos`. -/
def exWorker (startPort endPort : Int) (infos : List (MCServerInfo SimVm)) :
    DispatchWorker SimVm :=
  infos.foldl DispatchWorker.AddServer (exFresh startPort endPort)

/-- The worker with its clock standing at `t`. -/
def DispatchWorker.atTime {σ : Type} (w : DispatchWorker σ) (t : Time) : DispatchWorker σ :=
  { w with clock := fun _ => t }

/-- The worker with its clock replaced by `c`: the readings `time.Now()` returns from
this moment on. -/
def DispatchWorker.onClock {σ : Type} (w : DispatchWorker σ) (c : Clock) : DispatchWorker σ :=
  { w with clock := c }

/-- Number of `StartServer` calls spawned by two successive invocations of the login
callback of `name`.  The first invocation runs on the clock `c1`: `c1 0` is the reading
tested at line 181 and `c1 1` the later reading stored in `lastLogin` at line 184.  The
second invocation runs on the clock `c2` in the same way. -/
def startAttempts {σ : Type} (w : DispatchWorker σ) (name : String) (c1 c2 : Clock) : Nat :=
  let r1 := (w.onClock c1).onLogin name
  let r2 := (r1.2.onClock c2).onLogin name
  r1.1.toList.length + r2.1.toList.length

/-- A clock that reads `t` now and advances by one nanosecond with every reading. -/
def tickingFrom (t : Time) : Clock := fun n => t + (n : Int)

/-- What the worked examples observe of a worker for an endpoint with sub-domain
`subDomain`: its service-location record, its address record, and the reply to an `A`
query for `subDomain.example.com.` (with `net.ParseIP` left as the identity). -/
def observe (w : DispatchWorker SimVm) (subDomain : String) :
    Option String × Option String × Option (Msg String) :=
  (mapGet w.dnsServer.srvRecords (GetMinecraftSrvRecord subDomain),
   mapGet w.dnsServer.aRecords subDomain,
   w.dnsServer.dnsHandler id
     [{ Name := subDomain ++ ".example.com.", Qtype := TypeA, Qclass := ClassINET }])

/-- The worker after `StartServer(name)`, run with five rounds of polling. -/
def afterStart (w : DispatchWorker SimVm) (name : String) : DispatchWorker SimVm :=
  match w.StartServer 5 name with
  | some r => r.2
  | none => w

/-- The worker swept in the witness of the idle sweep: `survival`, running at `10.0.0.5`,
was started at time `0`; the clock now stands at 6 min. -/
def exSweepInput : DispatchWorker SimVm :=
  (afterStart (exWorker 30000 30010 [exInfo "survival" "survival"
    (simVm [⟨VM_STATUS_RUNNING, "10.0.0.5"⟩] none)]) "survival").atTime (6 * Minute)

/-- The registry entry of `survival` in `exSweepInput`. -/
def exSweepInfo : MCServerInfo SimVm :=
  (mapGet exSweepInput.serverMap "survival").getD
    (exInfo "survival" "survival" (simVm [] none))

/-- Input of the first counterexample to the idle sweep: as `exSweepInput`, with a
provider that refuses `Stop`. -/
def exRefusedInput : DispatchWorker SimVm :=
  (afterStart (exWorker 30000 30010 [exInfo "survival" "survival"
    (simVm [⟨VM_STATUS_RUNNING, "10.0.0.5"⟩] (some "stop refused"))])
    "survival").atTime (6 * Minute)

/-- Input of the second counterexample to the idle sweep: `alpha` and `beta` share the
sub-domain `survival`; `beta` was started at time `0`, `alpha` at 4 min; the clock now
stands at 6 min. -/
def exSharedInput : DispatchWorker SimVm :=
  (afterStart ((afterStart (exWorker 30000 30010
      [exInfo "alpha" "survival" (simVm [⟨VM_STATUS_RUNNING, "10.0.0.5"⟩] none),
       exInfo "beta" "survival" (simVm [⟨VM_STATUS_RUNNING, "10.0.0.6"⟩] none)])
    "beta").atTime (4 * Minute)) "alpha").atTime (6 * Minute)

/-- Input of the timeout witness: `survival`, whose provider reports Stopped and then
Starting for ever, on a clock that advances by 30 s with every reading. -/
def exSlowInput : DispatchWorker SimVm :=
  { exWorker 30000 30010 [exInfo "survival" "survival"
      (simVm [⟨VM_STATUS_STOPPED, ""⟩, ⟨VM_STATUS_STARTING, ""⟩] none)] with
    clock := fun n => (n : Int) * (30 * Second) }

/-- The registry entry of `survival` in `exSlowInput`. -/
def exSlowInfo : MCServerInfo SimVm :=
  (mapGet exSlowInput.serverMap "survival").getD
    (exInfo "survival" "survival" (simVm [] none))

/-- A server whose root domain is not ASCII: the configured name is `example.com` with an
a-umlaut for its `a`, twelve bytes in UTF-8, written here byte for byte; it holds one
address record, under the key `dispatc`. -/
def exUmlautDns : Option DnsServer :=
  (NewDnsServer 60 "ex\xc3\xa4mple.com").map (fun s => s.AddARecord "dispatc" "198.51.100.1")

/-! ## Invariants used in the proofs -/

/-- What a run of `AddServer` calls keeps true of a worker that started fresh: the decoy
table and the address table are empty, and every registered endpoint has the decoy port
`p` and a service-location record naming the dispatcher on that port. -/
def DecoyRouted {σ : Type} (p : Int) (w : DispatchWorker σ) : Prop :=
  w.fakeMcServers = [] ∧ w.dnsServer.aRecords = [] ∧
  findPort [] (w.options.EndPort + 1 - w.options.StartPort).toNat w.options.StartPort = p ∧
  ∀ name info, mapGet w.serverMap name = some info →
    info.fakeMcServer.port = p ∧
    mapGet w.dnsServer.srvRecords (GetMinecraftSrvRecord info.SubDomain)
      = some (w.GetDispatchServer ++ ":" ++ fmtInt p)

/-- The worker `w'` differs from `w` only in what belongs to the endpoint registered as
`m`: the options are the same, every other registry entry is the same, the entry of `m`
keeps its sub-domain, the clock has only advanced, and the records of every sub-domain
other than that of `m` are the same. -/
def Framed {σ : Type} (m : String) (w w' : DispatchWorker σ) : Prop :=
  w'.options = w.options ∧
  (∀ x, x ≠ m → mapGet w'.serverMap x = mapGet w.serverMap x) ∧
  (∀ i', mapGet w'.serverMap m = some i' →
    ∃ i, mapGet w.serverMap m = some i ∧ i'.SubDomain = i.SubDomain) ∧
  (∃ d, ∀ k, w'.clock k = w.clock (k + d)) ∧
  (∀ sub, (∀ i, mapGet w.serverMap m = some i → i.SubDomain ≠ sub) →
    mapGet w'.dnsServer.srvRecords (GetMinecraftSrvRecord sub)
      = mapGet w.dnsServer.srvRecords (GetMinecraftSrvRecord sub) ∧
    mapGet w'.dnsServer.aRecords sub = mapGet w.dnsServer.aRecords sub)

/-- No endpoint other than `n` has the sub-domain `sub`. -/
def Separate {σ : Type} (n sub : String) (w : DispatchWorker σ) : Prop :=
  ∀ m i, mapGet w.serverMap m = some i → m ≠ n → i.SubDomain ≠ sub

/-- The worker `w'` agrees with `w` on the options, on the registry entry of `n` and on
the records of the sub-domain `sub`, and its clock has only advanced. -/
def Untouched {σ : Type} (n sub : String) (w w' : DispatchWorker σ) : Prop :=
  w'.options = w.options ∧
  mapGet w'.serverMap n = mapGet w.serverMap n ∧
  (∃ d, ∀ k, w'.clock k = w.clock (k + d)) ∧
  mapGet w'.dnsServer.srvRecords (GetMinecraftSrvRecord sub)
    = mapGet w.dnsServer.srvRecords (GetMinecraftSrvRecord sub) ∧
  mapGet w'.dnsServer.aRecords sub = mapGet w.dnsServer.aRecords sub

/-- The provider after `j` status queries. -/
def pollState {σ : Type} (vm : VmProvider σ) : Nat → VmProvider σ
  | 0 => vm
  | j + 1 => pollState vm.GetStatus.2 j

/-- The SRV target a decoy answer advertises: the dispatcher host, dot-terminated the way
`dnsHandler` does it (lines 79-81). -/
def DispatchWorker.dispatchTarget {σ : Type} (w : DispatchWorker σ) : String :=
  if lastByte w.GetDispatchServer = some '.' then w.GetDispatchServer
  else w.GetDispatchServer ++ "."

/-! ## Lemmas on maps, strings and numerals -/

theorem mapGet_mapDel {κ β : Type} [DecidableEq κ] (m : GoMap κ β) (k k' : κ) :
    mapGet (mapDel m k) k' = if k = k' then none else mapGet m k' := by
  induction m with
  | nil => simp [mapDel, mapGet]
  | cons e rest ih =>
    obtain ⟨a, v⟩ := e
    by_cases h1 : a = k
    · subst h1
      by_cases h2 : a = k'
      · subst h2
        simpa [mapDel] using ih
      · simp [mapDel, mapGet, ih, h2]
    · by_cases h2 : a = k'
      · subst h2
        simp [mapDel, mapGet, h1, Ne.symm h1]
      · simp [mapDel, mapGet, h1, h2, ih]

theorem mapGet_mapSet {κ β : Type} [DecidableEq κ] (m : GoMap κ β) (k k' : κ) (v : β) :
    mapGet (mapSet m k v) k' = if k = k' then some v else mapGet m k' := by
  by_cases h : k = k'
  · simp [mapSet, mapGet, h]
  · simp [mapSet, mapGet, h, mapGet_mapDel]

theorem digitVal_digitChar (k : Nat) (hk : k < 10) : digitVal (Nat.digitChar k) = some k := by
  interval_cases k <;> decide

theorem parseDigits_toDigitsCore (fuel : Nat) :
    ∀ (n : Nat) (acc : List Char), n < fuel →
      parseDigits (Nat.toDigitsCore 10 fuel n acc) 0 = parseDigits acc n := by
  induction fuel with
  | zero => intro n acc h; omega
  | succ fuel ih =>
    intro n acc h
    have hd : digitVal (Nat.digitChar (n % 10)) = some (n % 10) :=
      digitVal_digitChar _ (Nat.mod_lt _ (by decide))
    by_cases h0 : n / 10 = 0
    · have e : Nat.toDigitsCore 10 (fuel + 1) n acc = Nat.digitChar (n % 10) :: acc := by
        simp [Nat.toDigitsCore, h0]
      have hn : 0 * 10 + n % 10 = n := by omega
      rw [e]
      simp only [parseDigits, hd, hn]
    · have hlt : n / 10 < fuel := by omega
      have e : Nat.toDigitsCore 10 (fuel + 1) n acc
          = Nat.toDigitsCore 10 fuel (n / 10) (Nat.digitChar (n % 10) :: acc) := by
        simp [Nat.toDigitsCore, h0]
      have hn : n / 10 * 10 + n % 10 = n := by omega
      rw [e, ih _ _ hlt]
      simp only [parseDigits, hd, hn]

/-- a character of a decimal numeral -/
theorem toDigitsCore_digit (fuel : Nat) :
    ∀ (n : Nat) (acc : List Char), (∀ c ∈ acc, (digitVal c).isSome) →
      ∀ c ∈ Nat.toDigitsCore 10 fuel n acc, (digitVal c).isSome := by
  induction fuel with
  | zero => intro n acc h; simpa [Nat.toDigitsCore] using h
  | succ fuel ih =>
    intro n acc h
    have hd : digitVal (Nat.digitChar (n % 10)) = some (n % 10) :=
      digitVal_digitChar _ (Nat.mod_lt _ (by decide))
    have hacc : ∀ c ∈ Nat.digitChar (n % 10) :: acc, (digitVal c).isSome := by
      intro c hc
      rcases List.mem_cons.1 hc with rfl | hc
      · simp [hd]
      · exact h c hc
    by_cases h0 : n / 10 = 0
    · simpa [Nat.toDigitsCore, h0] using hacc
    · simpa [Nat.toDigitsCore, h0] using ih _ _ hacc

theorem toDigitsCore_ne_nil (fuel n : Nat) (acc : List Char) (h : 0 < fuel) :
    Nat.toDigitsCore 10 fuel n acc ≠ [] := by
  induction fuel generalizing n acc with
  | zero => omega
  | succ fuel ih =>
    by_cases h0 : n / 10 = 0
    · simp [Nat.toDigitsCore, h0]
    · simp only [Nat.toDigitsCore, h0, if_false]
      cases fuel with
      | zero => simp [Nat.toDigitsCore]
      | succ f => exact ih _ _ (by omega)

theorem indexByte_of_not_mem (l : List Char) (c : Char) (h : c ∉ l) : indexByte l c = none := by
  induction l with
  | nil => rfl
  | cons x xs ih =>
    have hx : x ≠ c := fun e => h (by simp [e])
    have hxs : c ∉ xs := fun e => h (List.mem_cons_of_mem _ e)
    simp [indexByte, hx, ih hxs]

theorem lastIndexByte_of_not_mem (l : List Char) (c : Char) (h : c ∉ l) :
    lastIndexByte l c = none := by
  induction l with
  | nil => rfl
  | cons x xs ih =>
    have hx : x ≠ c := fun e => h (by simp [e])
    have hxs : c ∉ xs := fun e => h (List.mem_cons_of_mem _ e)
    simp [lastIndexByte, hx, ih hxs]

theorem lastIndexByte_append (a b : List Char) (c : Char) (hb : c ∉ b) :
    lastIndexByte (a ++ c :: b) c = some a.length := by
  induction a with
  | nil => simp [lastIndexByte, lastIndexByte_of_not_mem b c hb]
  | cons x xs ih => simp [lastIndexByte, ih]

theorem SplitHostPort_join (h d : List Char)
    (h1 : ':' ∉ h) (h2 : '[' ∉ h) (h3 : ']' ∉ h)
    (d1 : ':' ∉ d) (d2 : '[' ∉ d) (d3 : ']' ∉ d) :
    SplitHostPort ⟨h ++ ':' :: d⟩ = some (⟨h⟩, ⟨d⟩) := by
  have hhead : (h ++ ':' :: d).head? ≠ some '[' := by
    cases h with
    | nil => simp
    | cons x xs =>
      intro e
      apply h2
      simp at e
      simp [e]
  have hb1 : '[' ∉ h ++ ':' :: d := by simp [h2, d2]
  have hb2 : ']' ∉ h ++ ':' :: d := by simp [h3, d3]
  simp only [SplitHostPort, lastIndexByte_append h d ':' d1, hhead, if_false,
    List.take_left', indexByte_of_not_mem h ':' h1, Option.isSome_none, List.drop_zero,
    indexByte_of_not_mem _ _ hb1, indexByte_of_not_mem _ _ hb2]
  simp [indexByte_of_not_mem _ _ hb1, indexByte_of_not_mem _ _ hb2]

theorem Atoi_fmtInt (p : Nat) (hp : p ≤ 65535) : Atoi (fmtInt (p : Int)) = (p : Int) := by
  have hs : (fmtInt (p : Int)).data = Nat.toDigits 10 p := rfl
  have hdig : ∀ c ∈ Nat.toDigits 10 p, (digitVal c).isSome :=
    toDigitsCore_digit _ _ _ (by simp)
  have hne : Nat.toDigits 10 p ≠ [] := toDigitsCore_ne_nil _ _ _ (by omega)
  have hpar : parseDigits (Nat.toDigits 10 p) 0 = some p := by
    have := parseDigits_toDigitsCore (p + 1) p [] (by omega)
    simpa [Nat.toDigits, parseDigits] using this
  have hsign : ∀ c : Char, (digitVal c).isSome → c ≠ '-' ∧ c ≠ '+' := by
    intro c hc
    constructor <;> (rintro rfl; revert hc; decide)
  have hhead : (Nat.toDigits 10 p).head? ≠ some '-' ∧ (Nat.toDigits 10 p).head? ≠ some '+' := by
    cases hl : Nat.toDigits 10 p with
    | nil => simp
    | cons x xs =>
      have := hsign x (hdig x (by simp [hl]))
      simp [this.1, this.2]
  simp only [Atoi, hs, hhead.1, hhead.2, or_self, decide_False, Bool.false_eq_true, if_false,
    hne, hpar]
  split_ifs <;> omega

theorem recordKey_join (s : DnsServer) (n : String) (hdot : lastByte s.rootDomain = some '.') :
    recordKey s (n ++ "." ++ s.rootDomain) = n := by
  have hne : s.rootDomain.data ≠ [] := by
    intro e
    simp [lastByte, e] at hdot
  have hlast : lastByte (n ++ "." ++ s.rootDomain) = some '.' := by
    simp only [lastByte, String.data_append] at hdot ⊢
    rw [List.getLast?_append_of_ne_nil _ hne]
    exact hdot
  simp only [recordKey, hlast, ne_eq, not_true_eq_false, if_false, sliceTo, String.length,
    String.data_append, List.length_append]
  have hlen : (n.data.length + ".".data.length) + s.rootDomain.data.length
      - s.rootDomain.data.length - 1 = n.data.length := by
    have : ".".data.length = 1 := rfl
    omega
  have htake : List.take n.data.length (n.data ++ (['.'] ++ s.rootDomain.data)) = n.data :=
    List.take_left' rfl
  rw [hlen, List.append_assoc, htake]

theorem recordName_longer (s : DnsServer) (n : String) :
    ¬ (n ++ "." ++ s.rootDomain).length ≤ s.rootDomain.length := by
  have h1 : (n ++ "." ++ s.rootDomain).length = n.length + 1 + s.rootDomain.length := by
    rw [String.length_append, String.length_append]
    rfl
  omega

theorem digit_not_separator (c : Char) (hc : (digitVal c).isSome) :
    c ≠ ':' ∧ c ≠ '[' ∧ c ≠ ']' := by
  refine ⟨?_, ?_, ?_⟩ <;> (rintro rfl; revert hc; decide)

theorem mem_mapKeys_mapDel {κ β : Type} [DecidableEq κ] (m : GoMap κ β) (k x : κ)
    (h : x ∈ mapKeys (mapDel m k)) : x ∈ mapKeys m ∧ x ≠ k := by
  induction m with
  | nil => simp [mapDel, mapKeys] at h
  | cons e rest ih =>
    obtain ⟨a, v⟩ := e
    by_cases ha : a = k
    · simp only [mapDel, ha, if_true] at h
      have := ih h
      exact ⟨by simp [mapKeys] at this ⊢; exact Or.inr this.1, this.2⟩
    · simp only [mapDel, ha, if_false, mapKeys, List.map_cons, List.mem_cons] at h
      rcases h with rfl | h
      · exact ⟨by simp [mapKeys], ha⟩
      · have := ih h
        exact ⟨by simp [mapKeys] at this ⊢; exact Or.inr this.1, this.2⟩

/-- Deleting a key keeps the keys of a map distinct. -/
theorem mapKeys_nodup_mapDel {κ β : Type} [DecidableEq κ] (m : GoMap κ β) (k : κ)
    (h : (mapKeys m).Nodup) : (mapKeys (mapDel m k)).Nodup := by
  induction m with
  | nil => simp [mapDel, mapKeys]
  | cons e rest ih =>
    obtain ⟨a, v⟩ := e
    simp only [mapKeys, List.map_cons, List.nodup_cons] at h
    by_cases ha : a = k
    · simp only [mapDel, ha, if_true]
      exact ih h.2
    · simp only [mapDel, ha, if_false, mapKeys, List.map_cons, List.nodup_cons]
      exact ⟨fun hm => h.1 (mem_mapKeys_mapDel rest k a hm).1, ih h.2⟩

/-- Assigning to a key keeps the keys of a map distinct: the registry never lists a
name twice. -/
theorem mapKeys_nodup_mapSet {κ β : Type} [DecidableEq κ] (m : GoMap κ β) (k : κ) (v : β)
    (h : (mapKeys m).Nodup) : (mapKeys (mapSet m k v)).Nodup := by
  simp only [mapSet, mapKeys, List.map_cons, List.nodup_cons]
  exact ⟨fun hm => (mem_mapKeys_mapDel m k k hm).2 rfl, mapKeys_nodup_mapDel m k h⟩

theorem utf8Size_of_ascii (c : Char) (h : c.toNat < 128) : c.utf8Size = 1 := by
  have hv : c.val ≤ UInt32.ofNatCore 0x7F (by decide) := by
    show c.val.toNat ≤ 127
    have : c.toNat = c.val.toNat := rfl
    omega
  simp only [Char.utf8Size, hv, if_true]

theorem utf8ByteSize_go_of_ascii (l : List Char) (h : ∀ c ∈ l, c.toNat < 128) :
    String.utf8ByteSize.go l = l.length := by
  induction l with
  | nil => rfl
  | cons x xs ih =>
    simp only [String.utf8ByteSize.go, List.length_cons]
    rw [ih (fun c hc => h c (List.mem_cons_of_mem _ hc)),
      utf8Size_of_ascii x (h x (by simp))]

/-- ASCII text is its own byte-for-byte representation: it has as many characters as its
UTF-8 encoding has bytes. -/
theorem utf8ByteSize_of_ascii (s : String) (h : ∀ c ∈ s.data, c.toNat < 128) :
    s.utf8ByteSize = s.length := by
  cases s with
  | mk l => exact utf8ByteSize_go_of_ascii l h

/-- The handler counts bytes.  With the twelve-byte root domain of `exUmlautDns`
(thirteen bytes once dot-terminated) the query for `dispatch.example.com.`, 21 bytes,
passes the length test, loses its last 14 bytes, leaves the key `dispatc` and is answered
from the record stored under it. -/
theorem dnsHandler_counts_bytes :
    exUmlautDns.map (fun s => (s.rootDomain.length, recordKey s "dispatch.example.com."))
      = some (13, "dispatc") ∧
    exUmlautDns.bind (fun s => s.dnsHandler id
        [{ Name := "dispatch.example.com.", Qtype := TypeA, Qclass := ClassINET }])
      = some { Rcode := RcodeSuccess
               Question := [{ Name := "dispatch.example.com.", Qtype := TypeA,
                              Qclass := ClassINET }]
               Answer := [RR.A { Name := "dispatch.example.com.", Rrtype := TypeA,
                                 Class := ClassINET, Ttl := 60 } "198.51.100.1"] } := by
  decide

/-- The worker of the worked examples is the one `NewDispatchWorker` builds. -/
theorem NewDispatchWorker_example (startPort endPort : Int) :
    NewDispatchWorker (exOptions startPort endPort) (fun _ => 0)
      = some (exFresh startPort endPort) := rfl

/-! ## What one iteration of `checkServers` leaves alone -/

theorem GetMinecraftSrvRecord_inj (a b : String)
    (h : GetMinecraftSrvRecord a = GetMinecraftSrvRecord b) : a = b := by
  unfold GetMinecraftSrvRecord at h
  have h2 := congrArg String.data h
  simp only [String.data_append] at h2
  exact String.ext (List.append_cancel_left h2)

theorem Framed_refl {σ : Type} (m : String) (w : DispatchWorker σ) : Framed m w w :=
  ⟨rfl, fun _ _ => rfl, fun i' h => ⟨i', h, rfl⟩, ⟨0, fun _ => rfl⟩, fun _ _ => ⟨rfl, rfl⟩⟩

theorem Framed_trans {σ : Type} {m : String} {w w' w'' : DispatchWorker σ}
    (h1 : Framed m w w') (h2 : Framed m w' w'') : Framed m w w'' := by
  obtain ⟨a1, b1, c1, ⟨d1, e1⟩, f1⟩ := h1
  obtain ⟨a2, b2, c2, ⟨d2, e2⟩, f2⟩ := h2
  refine ⟨a2.trans a1, fun x hx => (b2 x hx).trans (b1 x hx), ?_, ⟨d2 + d1, ?_⟩, ?_⟩
  · intro i'' h
    obtain ⟨i', hi', hs'⟩ := c2 i'' h
    obtain ⟨i, hi, hs⟩ := c1 i' hi'
    exact ⟨i, hi, hs'.trans hs⟩
  · intro k
    rw [e2, e1, Nat.add_assoc]
  · intro sub hsub
    have hsub' : ∀ i, mapGet w'.serverMap m = some i → i.SubDomain ≠ sub := by
      intro i' hi'
      obtain ⟨i, hi, hs⟩ := c1 i' hi'
      rw [hs]
      exact hsub i hi
    exact ⟨(f2 sub hsub').1.trans (f1 sub hsub).1, (f2 sub hsub').2.trans (f1 sub hsub).2⟩

/-- Writing back the entry of `m` with the same sub-domain. -/
theorem Framed_setInfo {σ : Type} (m : String) (w : DispatchWorker σ)
    (i i' : MCServerInfo σ) (hi : mapGet w.serverMap m = some i)
    (hs : i'.SubDomain = i.SubDomain) :
    Framed m w { w with serverMap := mapSet w.serverMap m i' } := by
  refine ⟨rfl, ?_, ?_, ⟨0, fun _ => rfl⟩, fun _ _ => ⟨rfl, rfl⟩⟩
  · intro x hx
    simp [mapGet_mapSet, Ne.symm hx]
  · intro j hj
    simp only [mapGet_mapSet, if_true, Option.some.injEq] at hj
    subst hj
    exact ⟨i, hi, hs⟩

/-- One reading of the clock. -/
theorem Framed_tick {σ : Type} (m : String) (w : DispatchWorker σ) :
    Framed m w { w with clock := w.clock.next } :=
  ⟨rfl, fun _ _ => rfl, fun i' h => ⟨i', h, rfl⟩, ⟨1, fun _ => rfl⟩, fun _ _ => ⟨rfl, rfl⟩⟩

/-- The record update of `StopServer` for the endpoint `m`. -/
theorem Framed_decoy {σ : Type} (m : String) (w : DispatchWorker σ) (i : MCServerInfo σ)
    (hi : mapGet w.serverMap m = some i) (v : String) :
    Framed m w
      { w with
        dnsServer := (DnsServer.RemoveARecord
          (w.dnsServer.AddServiceRecord (GetMinecraftSrvRecord i.SubDomain) v) i.SubDomain) } := by
  refine ⟨rfl, fun _ _ => rfl, fun i' h => ⟨i', h, rfl⟩, ⟨0, fun _ => rfl⟩, ?_⟩
  intro sub hsub
  have hne : i.SubDomain ≠ sub := hsub i hi
  have hkey : GetMinecraftSrvRecord i.SubDomain ≠ GetMinecraftSrvRecord sub :=
    fun e => hne (GetMinecraftSrvRecord_inj _ _ e)
  simp [DnsServer.AddServiceRecord, DnsServer.RemoveARecord, mapGet_mapSet, mapGet_mapDel,
    hne, hkey]

theorem StopServer_framed {σ : Type} (w : DispatchWorker σ) (m : String) :
    Framed m w (w.StopServer m).2 := by
  unfold DispatchWorker.StopServer
  cases hi : mapGet w.serverMap m with
  | none => exact Framed_refl m w
  | some i =>
    simp only
    rcases hg : i.VM.GetStatus with ⟨_ | status, vm1⟩
    · exact Framed_setInfo m w i _ hi rfl
    · simp only
      rcases hs : (if status.Status = VM_STATUS_RUNNING then vm1.Stop else (none, vm1))
        with ⟨_ | err, vm2⟩
      · refine Framed_trans (Framed_decoy m w i hi
          (w.GetDispatchServer ++ ":" ++ fmtInt i.fakeMcServer.port)) ?_
        exact Framed_setInfo m _ i _ hi rfl
      · exact Framed_setInfo m w i _ hi rfl

theorem checkServer_framed {σ : Type} (ping : String → Bool) (w : DispatchWorker σ)
    (m : String) : Framed m w (DispatchWorker.checkServer ping w m) := by
  unfold DispatchWorker.checkServer
  cases hi : mapGet w.serverMap m with
  | none => exact Framed_refl m w
  | some i =>
    simp only
    rcases hg : i.VM.GetStatus with ⟨_ | status, vm1⟩
    · exact Framed_setInfo m w i _ hi rfl
    · simp only
      have h1 : Framed m w { w with serverMap := mapSet w.serverMap m { i with VM := vm1 } } :=
        Framed_setInfo m w i _ hi rfl
      by_cases hrun : status.Status = VM_STATUS_RUNNING
      · simp only [hrun, if_true]
        have h2 : ∀ w2 : DispatchWorker σ, Framed m w w2 →
            Framed m w
              (if ping (status.Ip ++ ":" ++ fmtInt i.Port) = true then
                match mapGet w2.serverMap m with
                | none => w2
                | some info2 =>
                  { w2 with serverMap := mapSet w2.serverMap m
                              { info2 with lastActivity := w2.clock 0 }
                            clock := w2.clock.next }
              else w2) := by
          intro w2 hw2
          by_cases hp : ping (status.Ip ++ ":" ++ fmtInt i.Port) = true
          · simp only [hp, if_true]
            cases hi2 : mapGet w2.serverMap m with
            | none => exact hw2
            | some i2 =>
              refine Framed_trans hw2 (Framed_trans (Framed_setInfo m w2 i2
                { i2 with lastActivity := w2.clock 0 } hi2 rfl) ?_)
              exact Framed_tick m _
          · simp only [hp]
            exact hw2
        apply h2
        by_cases hidle : w.clock 0 - i.lastActivity > 5 * Minute
        · simp only [hidle, if_true]
          exact Framed_trans h1 (Framed_trans (Framed_tick m _) (StopServer_framed _ m))
        · simp only [hidle, if_false]
          exact Framed_trans h1 (Framed_tick m _)
      · simp only [hrun, if_false]
        exact h1

theorem Separate_of_framed {σ : Type} {m n sub : String} {w w' : DispatchWorker σ}
    (h : Framed m w w') (hs : Separate n sub w) : Separate n sub w' := by
  obtain ⟨_, b, c, _, _⟩ := h
  intro x i hx hne
  by_cases hxm : x = m
  · subst hxm
    obtain ⟨i0, hi0, hsub⟩ := c i hx
    rw [hsub]
    exact hs x i0 hi0 hne
  · rw [b x hxm] at hx
    exact hs x i hx hne

theorem Untouched_of_framed {σ : Type} {m n sub : String} {w w' : DispatchWorker σ}
    (h : Framed m w w') (hs : Separate n sub w) (hne : m ≠ n) : Untouched n sub w w' := by
  obtain ⟨a, b, _, d, f⟩ := h
  have hsub : ∀ i, mapGet w.serverMap m = some i → i.SubDomain ≠ sub :=
    fun i hi => hs m i hi hne
  exact ⟨a, b n (Ne.symm hne), d, (f sub hsub).1, (f sub hsub).2⟩

theorem Untouched_trans {σ : Type} {n sub : String} {w w' w'' : DispatchWorker σ}
    (h1 : Untouched n sub w w') (h2 : Untouched n sub w' w'') : Untouched n sub w w'' := by
  obtain ⟨a1, b1, ⟨d1, e1⟩, f1, g1⟩ := h1
  obtain ⟨a2, b2, ⟨d2, e2⟩, f2, g2⟩ := h2
  refine ⟨a2.trans a1, b2.trans b1, ⟨d2 + d1, fun k => ?_⟩, f2.trans f1, g2.trans g1⟩
  rw [e2, e1, Nat.add_assoc]

theorem checkServers_untouched {σ : Type} (ping : String → Bool) (n sub : String)
    (names : List String) (hn : n ∉ names) :
    ∀ w : DispatchWorker σ, Separate n sub w →
      Untouched n sub w (names.foldl (DispatchWorker.checkServer ping) w) ∧
      Separate n sub (names.foldl (DispatchWorker.checkServer ping) w) := by
  induction names with
  | nil =>
    intro w hs
    exact ⟨⟨rfl, rfl, ⟨0, fun _ => rfl⟩, rfl, rfl⟩, hs⟩
  | cons m rest ih =>
    intro w hs
    have hm : m ≠ n := fun e => hn (by simp [e])
    have hrest : n ∉ rest := fun e => hn (List.mem_cons_of_mem _ e)
    have hf := checkServer_framed ping w m
    obtain ⟨hu, hs2⟩ := ih hrest _ (Separate_of_framed hf hs)
    exact ⟨Untouched_trans (Untouched_of_framed hf hs hm) hu, hs2⟩

theorem StopServer_of_running {σ : Type} (w : DispatchWorker σ) (n : String)
    (info : MCServerInfo σ) (st : VmStatus)
    (hreg : mapGet w.serverMap n = some info)
    (hst : info.VM.GetStatus.1 = Except.ok st) (hr : st.Status = VM_STATUS_RUNNING) :
    (w.StopServer n).2.serverMap
        = mapSet w.serverMap n { info with VM := info.VM.GetStatus.2.Stop.2 } ∧
    (info.VM.GetStatus.2.Stop.1 = none →
      (w.StopServer n).2.dnsServer
        = (w.dnsServer.AddServiceRecord (GetMinecraftSrvRecord info.SubDomain)
            (w.GetDispatchServer ++ ":" ++ fmtInt info.fakeMcServer.port)).RemoveARecord
            info.SubDomain) ∧
    (∀ err, info.VM.GetStatus.2.Stop.1 = some err → (w.StopServer n).2.dnsServer = w.dnsServer) ∧
    (w.StopServer n).2.clock = w.clock ∧ (w.StopServer n).2.options = w.options := by
  have hpair : info.VM.GetStatus = (Except.ok st, info.VM.GetStatus.2) := by
    rw [← hst]
  simp only [DispatchWorker.StopServer, hreg]
  rw [hpair]
  simp only [hr, if_true]
  rcases hs : info.VM.GetStatus.2.Stop with ⟨_ | err, vm2⟩
  · simp
  · simp

/-- The iteration of `checkServers` for an endpoint whose provider reports Running and
which has been idle for more than five minutes. -/
theorem checkServer_idle {σ : Type} (ping : String → Bool) (w : DispatchWorker σ)
    (n : String) (info : MCServerInfo σ)
    (hreg : mapGet w.serverMap n = some info)
    (st st2 : VmStatus)
    (hst : info.VM.GetStatus.1 = Except.ok st) (hr : st.Status = VM_STATUS_RUNNING)
    (hst2 : info.VM.GetStatus.2.GetStatus.1 = Except.ok st2)
    (hr2 : st2.Status = VM_STATUS_RUNNING)
    (hidle : w.clock 0 - info.lastActivity > 5 * Minute) :
    (mapGet (DispatchWorker.checkServer ping w n).serverMap n).map (fun i => i.VM)
      = some info.VM.GetStatus.2.GetStatus.2.Stop.2 ∧
    (info.VM.GetStatus.2.GetStatus.2.Stop.1 = none →
      mapGet (DispatchWorker.checkServer ping w n).dnsServer.srvRecords
          (GetMinecraftSrvRecord info.SubDomain)
        = some (w.GetDispatchServer ++ ":" ++ fmtInt info.fakeMcServer.port) ∧
      mapGet (DispatchWorker.checkServer ping w n).dnsServer.aRecords info.SubDomain = none) ∧
    (∀ err, info.VM.GetStatus.2.GetStatus.2.Stop.1 = some err →
      (DispatchWorker.checkServer ping w n).dnsServer = w.dnsServer) := by
  have hpair : info.VM.GetStatus = (Except.ok st, info.VM.GetStatus.2) := Prod.ext hst rfl
  generalize hw1 : ({ w with
      serverMap := mapSet w.serverMap n { info with VM := info.VM.GetStatus.2 }
      clock := w.clock.next } : DispatchWorker σ) = w1
  have hreg1 : mapGet w1.serverMap n = some { info with VM := info.VM.GetStatus.2 } := by
    rw [← hw1]
    simp [mapGet_mapSet]
  obtain ⟨hsm, hok, herr, hclk, hopt⟩ := StopServer_of_running w1 n
    { info with VM := info.VM.GetStatus.2 } st2 hreg1 hst2 hr2
  have hdns1 : w1.dnsServer = w.dnsServer := by rw [← hw1]
  have hopt1 : w1.GetDispatchServer = w.GetDispatchServer := by rw [← hw1]; rfl
  have hstep : DispatchWorker.checkServer ping w n
      = (if ping (st.Ip ++ ":" ++ fmtInt info.Port) = true then
          match mapGet (w1.StopServer n).2.serverMap n with
          | none => (w1.StopServer n).2
          | some info2 =>
            { (w1.StopServer n).2 with
              serverMap := mapSet (w1.StopServer n).2.serverMap n
                { info2 with lastActivity := (w1.StopServer n).2.clock 0 }
              clock := (w1.StopServer n).2.clock.next }
        else (w1.StopServer n).2) := by
    simp only [DispatchWorker.checkServer, hreg]
    rw [hpair]
    simp only [hr, if_true, hidle, hw1]
  rw [hstep]
  have hget : mapGet (w1.StopServer n).2.serverMap n
      = some { info with VM := info.VM.GetStatus.2.GetStatus.2.Stop.2 } := by
    rw [hsm]
    simp [mapGet_mapSet]
  by_cases hp : ping (st.Ip ++ ":" ++ fmtInt info.Port) = true
  · simp only [hp, if_true, hget]
    refine ⟨by simp [mapGet_mapSet], ?_, ?_⟩
    · intro hnone
      simp [hok hnone, hdns1, hopt1, DnsServer.AddServiceRecord, DnsServer.RemoveARecord,
        mapGet_mapSet, mapGet_mapDel]
    · intro err he
      simp [herr err he, hdns1]
  · simp only [hp]
    refine ⟨by simp [hget], ?_, ?_⟩
    · intro hnone
      simp [hok hnone, hdns1, hopt1, DnsServer.AddServiceRecord, DnsServer.RemoveARecord,
        mapGet_mapSet, mapGet_mapDel]
    · intro err he
      simp [herr err he, hdns1]

/-- The iteration of `checkServers` for an endpoint whose provider reports Running and
whose last activity is at most five minutes old. -/
theorem checkServer_active {σ : Type} (ping : String → Bool) (w : DispatchWorker σ)
    (n : String) (info : MCServerInfo σ)
    (hreg : mapGet w.serverMap n = some info)
    (st : VmStatus)
    (hst : info.VM.GetStatus.1 = Except.ok st) (hr : st.Status = VM_STATUS_RUNNING)
    (hfresh : ¬ w.clock 0 - info.lastActivity > 5 * Minute) :
    (mapGet (DispatchWorker.checkServer ping w n).serverMap n).map (fun i => i.VM)
      = some info.VM.GetStatus.2 ∧
    (DispatchWorker.checkServer ping w n).dnsServer = w.dnsServer := by
  have hpair : info.VM.GetStatus = (Except.ok st, info.VM.GetStatus.2) := Prod.ext hst rfl
  simp only [DispatchWorker.checkServer, hreg]
  rw [hpair]
  simp only [hr, if_true, hfresh, if_false, mapGet_mapSet]
  by_cases hp : ping (st.Ip ++ ":" ++ fmtInt info.Port) = true
  · simp only [hp, if_true]
    constructor <;> simp [mapGet_mapSet]
  · simp only [hp]
    constructor <;> simp [mapGet_mapSet]

theorem mem_mapKeys_of_mapGet {κ β : Type} [DecidableEq κ] (m : GoMap κ β) (k : κ) (v : β)
    (h : mapGet m k = some v) : k ∈ mapKeys m := by
  induction m with
  | nil => simp [mapGet] at h
  | cons e rest ih =>
    obtain ⟨a, b⟩ := e
    by_cases hk : a = k
    · simp [mapKeys, hk]
    · simp only [mapGet, hk, if_false] at h
      have := ih h
      simp only [mapKeys] at this ⊢
      exact List.mem_cons_of_mem _ this

/-- The root domain of a server built by `NewDnsServer` ends in a dot. -/
theorem NewDnsServer_rootDomain_dot (ttl : Int) (rootDomain : String) (s : DnsServer)
    (h : NewDnsServer ttl rootDomain = some s) : lastByte s.rootDomain = some '.' := by
  unfold NewDnsServer at h
  cases hl : lastByte rootDomain with
  | none => simp [hl] at h
  | some c =>
    simp only [hl, Option.some.injEq] at h
    subst h
    by_cases hc : c = '.'
    · simpa [hc] using hl
    · simp only [hc, ne_eq, not_false_eq_true, if_true, lastByte, String.data_append]
      simp

/-! ## C1: records after a successful `StartServer` -/

/-- C1. The provider of `survival` reports Stopped, accepts `Start`, reports Starting and
then Running with IP `10.0.0.5`.  `StartServer` returns no error and points the
service-location record at `survival.example.com:25565`, but the address record it
installs holds the IP of the first report (the empty text that came with Stopped), not
`10.0.0.5`: the `A` query for `survival.example.com.` is answered from `""`. -/
theorem StartServer_publishes_first_report_ip :
    (((exWorker 30000 30010 [exInfo "survival" "survival"
        (simVm [⟨VM_STATUS_STOPPED, ""⟩, ⟨VM_STATUS_STARTING, ""⟩,
          ⟨VM_STATUS_RUNNING, "10.0.0.5"⟩] none)]).StartServer 5 "survival").map
      (fun r => (r.1, observe r.2 "survival")))
    = some (none, some "survival.example.com:25565", some "",
        some { Rcode := RcodeSuccess
               Question := [{ Name := "survival.example.com.", Qtype := TypeA,
                              Qclass := ClassINET }]
               Answer := [RR.A { Name := "survival.example.com.", Rrtype := TypeA,
                                 Class := ClassINET, Ttl := 60 } ""] }) := by
  decide

/-! ## C2: `StopServer` on a running backend -/

/-- C2, as stated, fails.  The backend of `survival` runs at `10.0.0.5` and its provider
refuses `Stop`.  After a successful `StartServer`, `StopServer` returns the provider's
error and leaves both records as they were: the service-location record still names the
backend and the address record is still present. -/
theorem StopServer_failed_stop_keeps_backend_records :
    (((exWorker 30000 30010 [exInfo "survival" "survival"
        (simVm [⟨VM_STATUS_RUNNING, "10.0.0.5"⟩] (some "stop refused"))]).StartServer 5
          "survival").map
      (fun r => ((r.2.StopServer "survival").1,
        mapGet (r.2.StopServer "survival").2.dnsServer.srvRecords "_minecraft._tcp.survival",
        mapGet (r.2.StopServer "survival").2.dnsServer.aRecords "survival")))
    = some (some "stop refused", some "survival.example.com:25565", some "10.0.0.5") := by
  decide

/-- C2, amended.  For a registered endpoint whose provider reports Running: when
`provider.Stop` succeeds, `StopServer` returns no error, the service-location record is
`<dispatcher host>:<decoy port>` and the endpoint's address record is absent; when
`provider.Stop` fails, `StopServer` returns that error and leaves both record tables
untouched. -/
theorem StopServer_running {σ : Type} (w : DispatchWorker σ) (name : String)
    (info : MCServerInfo σ) (status : VmStatus)
    (hreg : mapGet w.serverMap name = some info)
    (hstatus : info.VM.GetStatus.1 = Except.ok status)
    (hrun : status.Status = VM_STATUS_RUNNING) :
    (info.VM.GetStatus.2.Stop.1 = none →
      (w.StopServer name).1 = none ∧
      mapGet (w.StopServer name).2.dnsServer.srvRecords (GetMinecraftSrvRecord info.SubDomain)
        = some (w.GetDispatchServer ++ ":" ++ fmtInt info.fakeMcServer.port) ∧
      mapGet (w.StopServer name).2.dnsServer.aRecords info.SubDomain = none) ∧
    (∀ err, info.VM.GetStatus.2.Stop.1 = some err →
      (w.StopServer name).1 = some err ∧
      (w.StopServer name).2.dnsServer = w.dnsServer) := by
  have hpair : info.VM.GetStatus = (Except.ok status, info.VM.GetStatus.2) := by
    rw [← hstatus]
  constructor
  · intro hstop
    have hs : info.VM.GetStatus.2.Stop = (none, info.VM.GetStatus.2.Stop.2) := by
      rw [← hstop]
    simp only [DispatchWorker.StopServer, hreg]
    rw [hpair]
    simp only [hrun, if_true]
    rw [hs]
    simp [DnsServer.AddServiceRecord, DnsServer.RemoveARecord, mapGet_mapSet, mapGet_mapDel]
  · intro err hstop
    have hs : info.VM.GetStatus.2.Stop = (some err, info.VM.GetStatus.2.Stop.2) := by
      rw [← hstop]
    simp only [DispatchWorker.StopServer, hreg]
    rw [hpair]
    simp only [hrun, if_true]
    rw [hs]
    simp

/-- Witness for C2: an endpoint whose provider reports Running and stops on request. -/
theorem StopServer_running_witness :
    ((exWorker 30000 30010 [exInfo "survival" "survival"
        (simVm [⟨VM_STATUS_RUNNING, "10.0.0.5"⟩] none)]).StopServer "survival").1 = none ∧
    mapGet ((exWorker 30000 30010 [exInfo "survival" "survival"
        (simVm [⟨VM_STATUS_RUNNING, "10.0.0.5"⟩] none)]).StopServer
          "survival").2.dnsServer.srvRecords "_minecraft._tcp.survival"
      = some "dispatch.example.com:30000" ∧
    mapGet ((exWorker 30000 30010 [exInfo "survival" "survival"
        (simVm [⟨VM_STATUS_RUNNING, "10.0.0.5"⟩] none)]).StopServer
          "survival").2.dnsServer.aRecords "survival" = none :=
  (StopServer_running
    (exWorker 30000 30010 [exInfo "survival" "survival"
      (simVm [⟨VM_STATUS_RUNNING, "10.0.0.5"⟩] none)])
    "survival"
    { exInfo "survival" "survival" (simVm [⟨VM_STATUS_RUNNING, "10.0.0.5"⟩] none) with
      fakeMcServer := ⟨30000⟩ }
    ⟨VM_STATUS_RUNNING, "10.0.0.5"⟩ rfl rfl rfl).1 rfl

/-! ## C3: decoy port allocation -/

/-- C3.  `AddServer` computes the used ports from `fakeMcServers`, a map nothing ever
writes to, so every registration finds the first port of the range free.  With the range
`[30000,30010]` the endpoints `survival` and `creative` both get decoy port `30000`; with
the one-port range `[30000,30000]` the second registration does not fail either: both
endpoints are registered, again on port `30000`. -/
theorem AddServer_hands_out_same_port :
    (((mapGet (exWorker 30000 30010
          [exInfo "survival" "survival" (simVm [⟨VM_STATUS_STOPPED, ""⟩] none),
           exInfo "creative" "creative" (simVm [⟨VM_STATUS_STOPPED, ""⟩] none)]).serverMap
        "survival").map (fun i => i.fakeMcServer.port),
      (mapGet (exWorker 30000 30010
          [exInfo "survival" "survival" (simVm [⟨VM_STATUS_STOPPED, ""⟩] none),
           exInfo "creative" "creative" (simVm [⟨VM_STATUS_STOPPED, ""⟩] none)]).serverMap
        "creative").map (fun i => i.fakeMcServer.port))
      = (some 30000, some 30000)) ∧
    (((mapGet (exWorker 30000 30000
          [exInfo "survival" "survival" (simVm [⟨VM_STATUS_STOPPED, ""⟩] none),
           exInfo "creative" "creative" (simVm [⟨VM_STATUS_STOPPED, ""⟩] none)]).serverMap
        "survival").map (fun i => i.fakeMcServer.port),
      (mapGet (exWorker 30000 30000
          [exInfo "survival" "survival" (simVm [⟨VM_STATUS_STOPPED, ""⟩] none),
           exInfo "creative" "creative" (simVm [⟨VM_STATUS_STOPPED, ""⟩] none)]).serverMap
        "creative").map (fun i => i.fakeMcServer.port))
      = (some 30000, some 30000)) := by
  decide

/-! ## C4: the debounced login callback -/

/-- C4, as stated, fails.  The cool-down also runs from the registration itself
(`lastLogin := time.Now()` in `AddServer`).  With `survival` registered at time `0`, the
invocations at 1 s and 2 s lie less than 10 s apart and trigger no `StartServer` at all,
and the invocations at 1 s and 12 s lie more than 10 s apart and trigger only one. -/
theorem onLogin_ignored_after_registration :
    (2 * Second - 1 * Second < 10 * Second ∧
      startAttempts (exWorker 30000 30010
        [exInfo "survival" "survival" (simVm [⟨VM_STATUS_STOPPED, ""⟩] none)])
        "survival" (tickingFrom (1 * Second)) (tickingFrom (2 * Second)) = 0) ∧
    (¬ 12 * Second - 1 * Second < 10 * Second ∧
      startAttempts (exWorker 30000 30010
        [exInfo "survival" "survival" (simVm [⟨VM_STATUS_STOPPED, ""⟩] none)])
        "survival" (tickingFrom (1 * Second)) (tickingFrom (12 * Second)) = 1) := by
  decide

/-- C4, amended.  For every registered endpoint, in whatever state the worker is, and
every two successive invocations of its login callback, the first at a time `t1 = c1 0`
at least the cool-down of 10 s after the endpoint's `lastLogin` (the registration time
until a login triggers, afterwards the time stored by the last trigger) and the second at
`t2 = c2 0`: the first invocation triggers `StartServer` and stores the reading `c1 1` it
takes next as `lastLogin`, and the two invocations trigger exactly one `StartServer` when
`t2` is less than the cool-down after that stored time, and two when it is at least the
cool-down after it.  On a clock that does not advance between the test and the store the
stored time is `t1`. -/
theorem onLogin_debounce {σ : Type} (w : DispatchWorker σ) (name : String)
    (info : MCServerInfo σ) (c1 c2 : Clock)
    (hreg : mapGet w.serverMap name = some info)
    (hfirst : 10 * Second ≤ c1 0 - info.lastLogin) :
    startAttempts w name c1 c2 = if c2 0 - c1 1 < 10 * Second then 1 else 2 := by
  have h1 : ¬ (c1 0 - info.lastLogin < 10 * Second) := not_lt.2 hfirst
  by_cases h2 : c2 0 - c1 1 < 10 * Second
  · simp [startAttempts, DispatchWorker.onLogin, DispatchWorker.onClock, hreg,
      mapGet_mapSet, h1, h2]
  · simp [startAttempts, DispatchWorker.onLogin, DispatchWorker.onClock, hreg,
      mapGet_mapSet, h1, h2]

/-- Witness for C4: `survival` was registered at time `0`, before `creative`; its login
callback is invoked at 10 s and at 15 s, on a clock that advances with every reading. -/
theorem onLogin_debounce_witness :
    startAttempts (exWorker 30000 30010
        [exInfo "survival" "survival" (simVm [⟨VM_STATUS_STOPPED, ""⟩] none),
         exInfo "creative" "creative" (simVm [⟨VM_STATUS_STOPPED, ""⟩] none)])
      "survival" (tickingFrom (10 * Second)) (tickingFrom (15 * Second)) = 1 :=
  onLogin_debounce
    (exWorker 30000 30010
      [exInfo "survival" "survival" (simVm [⟨VM_STATUS_STOPPED, ""⟩] none),
       exInfo "creative" "creative" (simVm [⟨VM_STATUS_STOPPED, ""⟩] none)])
    "survival"
    { exInfo "survival" "survival" (simVm [⟨VM_STATUS_STOPPED, ""⟩] none) with
      fakeMcServer := ⟨30000⟩ }
    (tickingFrom (10 * Second)) (tickingFrom (15 * Second)) rfl (by decide)

/-! ## C5: records of endpoints that were never started -/

theorem DecoyRouted_AddServer {σ : Type} (p : Int) (w : DispatchWorker σ)
    (info : MCServerInfo σ) (h : DecoyRouted p w) : DecoyRouted p (w.AddServer info) := by
  obtain ⟨hfake, ha, hp, hall⟩ := h
  refine ⟨hfake, ?_, hp, ?_⟩
  · simp [DispatchWorker.AddServer, DnsServer.AddServiceRecord, DnsServer.RemoveARecord, ha,
      mapDel]
  · intro name i hreg
    simp only [DispatchWorker.AddServer, hfake, List.map_nil, hp, mapGet_mapSet,
      DnsServer.AddServiceRecord, DnsServer.RemoveARecord,
      DispatchWorker.GetDispatchServer] at hreg ⊢
    by_cases hname : info.Name = name
    · simp only [hname, if_true, Option.some.injEq] at hreg
      subst hreg
      simp
    · simp only [hname, if_false] at hreg
      obtain ⟨h1, h2⟩ := hall name i hreg
      refine ⟨h1, ?_⟩
      by_cases hk : GetMinecraftSrvRecord info.SubDomain = GetMinecraftSrvRecord i.SubDomain
      · simp [hk]
      · simpa [hk, DispatchWorker.GetDispatchServer] using h2

theorem DecoyRouted_foldl {σ : Type} (p : Int) (infos : List (MCServerInfo σ)) :
    ∀ w : DispatchWorker σ, DecoyRouted p w →
      DecoyRouted p (infos.foldl DispatchWorker.AddServer w) := by
  induction infos with
  | nil => intro w h; exact h
  | cons info rest ih => intro w h; exact ih _ (DecoyRouted_AddServer p w info h)

theorem DecoyRouted_NewDispatchWorker {σ : Type} (options : DispatchWorkerOptions)
    (clock : Clock) (w0 : DispatchWorker σ) (h : NewDispatchWorker options clock = some w0) :
    DecoyRouted
      (findPort [] (options.EndPort + 1 - options.StartPort).toNat options.StartPort) w0 := by
  unfold NewDispatchWorker at h
  cases hd : NewDnsServer options.DnsTtl options.RootDomain with
  | none => simp [hd] at h
  | some d =>
    simp only [hd, Option.some.injEq] at h
    subst h
    unfold NewDnsServer at hd
    cases hl : lastByte options.RootDomain with
    | none => simp [hl] at hd
    | some c =>
      simp only [hl, Option.some.injEq] at hd
      subst hd
      exact ⟨rfl, rfl, rfl, fun name info hreg => by simp [mapGet] at hreg⟩

/-- C5.  After any sequence of `AddServer` calls on a fresh worker, with `StartServer`
never called, every registered endpoint's service-location record
`_minecraft._tcp.<subdomain>` equals `<dispatcher host>:<that endpoint's decoy port>` and
the address table holds no record at all, so none for the endpoint's domain.  Concretely,
registering `survival` (sub-domain `survival`, port 25565) on a fresh worker with decoy
range `[30000,30010]` makes the service-location record name the dispatcher on port
30000. -/
theorem AddServer_decoy_routing :
    (∀ (σ : Type) (options : DispatchWorkerOptions) (clock : Clock) (w0 : DispatchWorker σ)
        (infos : List (MCServerInfo σ)),
      NewDispatchWorker options clock = some w0 →
      ∀ name info, mapGet (infos.foldl DispatchWorker.AddServer w0).serverMap name = some info →
        mapGet (infos.foldl DispatchWorker.AddServer w0).dnsServer.srvRecords
            (GetMinecraftSrvRecord info.SubDomain)
          = some ((infos.foldl DispatchWorker.AddServer w0).GetDispatchServer ++ ":" ++
              fmtInt info.fakeMcServer.port) ∧
        ∀ key, mapGet (infos.foldl DispatchWorker.AddServer w0).dnsServer.aRecords key
          = none) ∧
    (∀ (σ : Type) (options : DispatchWorkerOptions) (clock : Clock) (w0 : DispatchWorker σ)
        (info : MCServerInfo σ),
      NewDispatchWorker options clock = some w0 →
      options.StartPort = 30000 → options.EndPort = 30010 →
      info.Name = "survival" → info.SubDomain = "survival" → info.Port = 25565 →
      mapGet (w0.AddServer info).dnsServer.srvRecords "_minecraft._tcp.survival"
        = some ("dispatch." ++ options.RootDomain ++ ":" ++ "30000")) := by
  constructor
  · intro σ options clock w0 infos hnew name info hreg
    obtain ⟨_, ha, _, hall⟩ :=
      DecoyRouted_foldl _ infos w0 (DecoyRouted_NewDispatchWorker options clock w0 hnew)
    obtain ⟨h1, h2⟩ := hall name info hreg
    refine ⟨by rw [h1]; exact h2, fun key => by rw [ha]; rfl⟩
  · intro σ options clock w0 info hnew hs he _ hsub _
    obtain ⟨hfake, _, hp, _⟩ := DecoyRouted_NewDispatchWorker options clock w0 hnew
    have hopt : w0.options = options := by
      unfold NewDispatchWorker at hnew
      cases hd : NewDnsServer options.DnsTtl options.RootDomain with
      | none => simp [hd] at hnew
      | some d =>
        simp only [hd, Option.some.injEq] at hnew
        subst hnew
        rfl
    simp only [DispatchWorker.AddServer, hfake, List.map_nil, hopt, hs, he, hsub,
      DnsServer.AddServiceRecord, DnsServer.RemoveARecord, mapGet_mapSet,
      DispatchWorker.GetDispatchServer]
    have hport : findPort [] ((30010 : Int) + 1 - 30000).toNat 30000 = 30000 := by decide
    have hfmt : fmtInt 30000 = "30000" := by decide
    have hkey : GetMinecraftSrvRecord "survival" = "_minecraft._tcp.survival" := by decide
    rw [hport, hfmt, hkey]
    simp

/-- Witness for C5: `survival` and `creative` registered on the worker of the worked
examples. -/
theorem AddServer_decoy_routing_witness :
    mapGet ([exInfo "survival" "survival" (simVm [⟨VM_STATUS_STOPPED, ""⟩] none),
        exInfo "creative" "creative" (simVm [⟨VM_STATUS_STOPPED, ""⟩] none)].foldl
          DispatchWorker.AddServer (exFresh 30000 30010)).dnsServer.srvRecords
        (GetMinecraftSrvRecord "creative")
      = some (([exInfo "survival" "survival" (simVm [⟨VM_STATUS_STOPPED, ""⟩] none),
          exInfo "creative" "creative" (simVm [⟨VM_STATUS_STOPPED, ""⟩] none)].foldl
            DispatchWorker.AddServer (exFresh 30000 30010)).GetDispatchServer ++ ":" ++
          fmtInt 30000) ∧
    mapGet ((exFresh 30000 30010).AddServer
        (exInfo "survival" "survival" (simVm [⟨VM_STATUS_STOPPED, ""⟩] none))).dnsServer.srvRecords
        "_minecraft._tcp.survival"
      = some ("dispatch." ++ "example.com" ++ ":" ++ "30000") :=
  ⟨(AddServer_decoy_routing.1 SimVm (exOptions 30000 30010) (fun _ => 0) (exFresh 30000 30010)
      [exInfo "survival" "survival" (simVm [⟨VM_STATUS_STOPPED, ""⟩] none),
       exInfo "creative" "creative" (simVm [⟨VM_STATUS_STOPPED, ""⟩] none)]
      rfl "creative"
      { exInfo "creative" "creative" (simVm [⟨VM_STATUS_STOPPED, ""⟩] none) with
        fakeMcServer := ⟨30000⟩ }
      rfl).1,
   AddServer_decoy_routing.2 SimVm (exOptions 30000 30010) (fun _ => 0) (exFresh 30000 30010)
      (exInfo "survival" "survival" (simVm [⟨VM_STATUS_STOPPED, ""⟩] none))
      rfl rfl rfl rfl rfl rfl⟩

/-! ## C6: records and provider state -/

/-- C6.  The provider of `survival` reports Starting, and goes on reporting Starting.
`StartServer` returns no error and installs the backend's records all the same: the
service-location record names `survival.example.com:25565` and an address record exists,
although the provider has never reported Running. -/
theorem StartServer_while_starting_installs_backend :
    ((exWorker 30000 30010 [exInfo "survival" "survival"
        (simVm [⟨VM_STATUS_STARTING, ""⟩] none)]).StartServer 5 "survival").map
      (fun r => (r.1,
        mapGet r.2.dnsServer.srvRecords "_minecraft._tcp.survival",
        mapGet r.2.dnsServer.aRecords "survival",
        (mapGet r.2.serverMap "survival").map (fun i => i.VM.state.reports)))
    = some (none, some "survival.example.com:25565", some "",
        some [⟨VM_STATUS_STARTING, ""⟩]) := by
  decide

/-! ## C7: `RemoveServer` -/

/-- C7.  The endpoint named `mc1` has sub-domain `survival` and a backend running at
`10.0.0.5`.  After a successful `StartServer`, `RemoveServer` takes the endpoint out of
the registry and removes its service-location record, but it deletes the address record
under the key `mc1` while `StartServer` stored it under `survival`: the address record
stays, and the `A` query for `survival.example.com.` is still answered. -/
theorem RemoveServer_leaves_address_record :
    ((exWorker 30000 30010 [exInfo "mc1" "survival"
        (simVm [⟨VM_STATUS_RUNNING, "10.0.0.5"⟩] none)]).StartServer 5 "mc1").map
      (fun r => (mapGet (r.2.RemoveServer "mc1").serverMap "mc1").isSome) = some false ∧
    ((exWorker 30000 30010 [exInfo "mc1" "survival"
        (simVm [⟨VM_STATUS_RUNNING, "10.0.0.5"⟩] none)]).StartServer 5 "mc1").map
      (fun r => (r.1, observe (r.2.RemoveServer "mc1") "survival"))
    = some (none, none, some "10.0.0.5",
        some { Rcode := RcodeSuccess
               Question := [{ Name := "survival.example.com.", Qtype := TypeA,
                              Qclass := ClassINET }]
               Answer := [RR.A { Name := "survival.example.com.", Rrtype := TypeA,
                                 Class := ClassINET, Ttl := 60 } "10.0.0.5"] }) := by
  decide

/-! ## C8: queries answered with "name not found" -/

/-- C8, as stated, fails.  The handler cuts `len(rootDomain)+1` bytes off the queried name
without comparing them with the root domain.  On the server of a started worker (root
domain `example.com.`, address record `dispatch`), the name `dispatch.example.org.` is
under a different root domain and is not `<key>.example.com.` for any key, yet the `A`
query for it is answered with the dispatcher's address record. -/
theorem dnsHandler_answers_other_root :
    (∀ key : String, "dispatch.example.org." ≠ key ++ "." ++ "example.com.") ∧
    (exFresh 30000 30010).Start.dnsServer.rootDomain = "example.com." ∧
    (exFresh 30000 30010).Start.dnsServer.dnsHandler id
        [{ Name := "dispatch.example.org.", Qtype := TypeA, Qclass := ClassINET }]
      = some { Rcode := RcodeSuccess
               Question := [{ Name := "dispatch.example.org.", Qtype := TypeA,
                              Qclass := ClassINET }]
               Answer := [RR.A { Name := "dispatch.example.org.", Rrtype := TypeA,
                                 Class := ClassINET, Ttl := 60 } "203.0.113.7"] } := by
  refine ⟨?_, by decide, by decide⟩
  intro key h
  have h2 := congrArg (fun s : String => s.data.reverse.take 12) h
  simp only [String.data_append, List.reverse_append] at h2
  rw [List.take_append_of_le_length (by decide)] at h2
  revert h2
  decide

/-- C8, amended.  `dnsHandler` responds with the "name not found" code and no answer
records whenever the query does not contain exactly one question, or the question's type
is neither SRV nor A, or the queried name has no more bytes than the root domain, or the
key the handler derives from the name (the dot-terminated name without its last
`len(rootDomain)+1` bytes, `recordKey`) is absent from the table of the queried type.
Names, root domain and keys are byte strings, one `Char` per byte, and every length is a
number of bytes. -/
theorem dnsHandler_nameError {ι : Type} (ParseIP : String → ι) (s : DnsServer)
    (r : List Question)
    (h : r.length ≠ 1 ∨ ∃ q, r = [q] ∧
      ((q.Qtype ≠ TypeSRV ∧ q.Qtype ≠ TypeA) ∨
        q.Name.length ≤ s.rootDomain.length ∨
        (q.Qtype = TypeSRV ∧ mapGet s.srvRecords (recordKey s q.Name) = none) ∨
        (q.Qtype = TypeA ∧ mapGet s.aRecords (recordKey s q.Name) = none))) :
    s.dnsHandler ParseIP r
      = some { Rcode := RcodeNameError, Question := r.take 1, Answer := [] } := by
  rcases h with h | ⟨q, rfl, h⟩
  · match r, h with
    | [], _ => simp [DnsServer.dnsHandler, SetReply]
    | [_], h => simp at h
    | _ :: _ :: _, _ => simp [DnsServer.dnsHandler, SetReply]
  · by_cases hlen : q.Name.length ≤ s.rootDomain.length
    · simp [DnsServer.dnsHandler, SetReply, hlen]
    · rcases h with ⟨h1, h2⟩ | h | ⟨h1, h2⟩ | ⟨h1, h2⟩
      · simp [DnsServer.dnsHandler, SetReply, hlen, h1, h2]
      · exact absurd h hlen
      · simp [DnsServer.dnsHandler, SetReply, hlen, h1, h2]
      · have h3 : q.Qtype ≠ TypeSRV := by rw [h1]; decide
        simp [DnsServer.dnsHandler, SetReply, hlen, h1, h2, h3]
        intro h4
        exact absurd h4 (by decide)

/-- Witness for C8: an `A` query for a name that is not registered. -/
theorem dnsHandler_nameError_witness :
    (exFresh 30000 30010).Start.dnsServer.dnsHandler id
        [{ Name := "survival.example.com.", Qtype := TypeA, Qclass := ClassINET }]
      = some { Rcode := RcodeNameError
               Question := [{ Name := "survival.example.com.", Qtype := TypeA,
                              Qclass := ClassINET }]
               Answer := [] } :=
  dnsHandler_nameError id (exFresh 30000 30010).Start.dnsServer
    [{ Name := "survival.example.com.", Qtype := TypeA, Qclass := ClassINET }]
    (Or.inr ⟨_, rfl, Or.inr (Or.inr (Or.inr ⟨rfl, by decide⟩))⟩)

/-! ## C9: the answer to an SRV query -/

/-- C9, as stated, fails.  For the host `::1` the stored value `::1:25565` is rejected by
`net.SplitHostPort` (too many colons) and the SRV query is answered with the "server
failure" code and no record. -/
theorem dnsHandler_srv_host_with_colon :
    ((exFresh 30000 30010).dnsServer.AddServiceRecord "_minecraft._tcp.survival"
        ("::1" ++ ":" ++ fmtInt 25565)).dnsHandler id
        [{ Name := "_minecraft._tcp.survival" ++ "." ++ "example.com.", Qtype := TypeSRV,
           Qclass := ClassINET }]
      = some { Rcode := RcodeServerFailure
               Question := [{ Name := "_minecraft._tcp.survival.example.com.",
                              Qtype := TypeSRV, Qclass := ClassINET }]
               Answer := [] } := by
  decide

/-- C9, amended.  For every service name `n`, every non-empty host `h` that contains none
of `:`, `[`, `]`, and every port `p` in 0..65535, on a server whose root domain ends in a
dot (as `NewDnsServer` makes it): after `AddServiceRecord(n, "h:p")` the single-question
SRV query for `<n>.<rootDomain>` is answered successfully with exactly one SRV record,
whose target is `h` with a trailing dot (appended only when `h` does not end in one),
whose port is `p`, whose priority and weight are 10, and whose TTL is the configured TTL
converted to `uint32` (the TTL itself when it lies in 0..2^32-1). -/
theorem dnsHandler_srv_answer {ι : Type} (ParseIP : String → ι) (s : DnsServer) (n h : String)
    (p qclass : Nat)
    (hroot : lastByte s.rootDomain = some '.')
    (hh : h ≠ "")
    (hcolon : ':' ∉ h.data) (hopen : '[' ∉ h.data) (hclose : ']' ∉ h.data)
    (hp : p ≤ 65535) :
    (s.AddServiceRecord n (h ++ ":" ++ fmtInt (p : Int))).dnsHandler ParseIP
        [{ Name := n ++ "." ++ s.rootDomain, Qtype := TypeSRV, Qclass := qclass }]
      = some
        { Rcode := RcodeSuccess
          Question := [{ Name := n ++ "." ++ s.rootDomain, Qtype := TypeSRV, Qclass := qclass }]
          Answer := [RR.SRV
            { Name := n ++ "." ++ s.rootDomain, Rrtype := TypeSRV, Class := ClassINET,
              Ttl := (s.ttl % 4294967296).toNat }
            10 10 p (if lastByte h = some '.' then h else h ++ ".")] } := by
  have hdig : ∀ c ∈ Nat.toDigits 10 p, (digitVal c).isSome :=
    toDigitsCore_digit _ _ _ (by simp)
  have hrec : h ++ ":" ++ fmtInt (p : Int) = ⟨h.data ++ ':' :: Nat.toDigits 10 p⟩ := by
    apply String.ext
    simp only [String.data_append]
    rw [List.append_assoc]
    rfl
  have hsplit : SplitHostPort (h ++ ":" ++ fmtInt (p : Int))
      = some (h, fmtInt (p : Int)) := by
    rw [hrec]
    exact SplitHostPort_join h.data _ hcolon hopen hclose
      (fun hm => (digit_not_separator _ (hdig _ hm)).1 rfl)
      (fun hm => (digit_not_separator _ (hdig _ hm)).2.1 rfl)
      (fun hm => (digit_not_separator _ (hdig _ hm)).2.2 rfl)
  have hkey : recordKey (s.AddServiceRecord n (h ++ ":" ++ fmtInt (p : Int)))
      (n ++ "." ++ s.rootDomain) = n :=
    recordKey_join (s.AddServiceRecord n (h ++ ":" ++ fmtInt (p : Int))) n hroot
  have hport : (Atoi (fmtInt (p : Int)) % 65536).toNat = p := by
    rw [Atoi_fmtInt p hp]
    omega
  obtain ⟨c, hc⟩ : ∃ c, lastByte h = some c := by
    cases hd : h.data with
    | nil => exact absurd (String.ext hd) hh
    | cons x xs =>
      have := List.getLast?_isSome.2 (List.cons_ne_nil x xs)
      rw [← hd] at this
      exact Option.isSome_iff_exists.1 this
  have hlen := recordName_longer s n
  simp only [DnsServer.dnsHandler, SetReply, DnsServer.AddServiceRecord] at hkey ⊢
  simp only [hlen, if_false, hkey, mapGet_mapSet, if_true, hsplit, hc, hport]
  by_cases hcd : c = '.'
  · simp [hcd, RcodeSuccess]
  · simp [hcd, RcodeSuccess]

/-- Witness for C9: the backend record `survival.example.com:25565`. -/
theorem dnsHandler_srv_answer_witness :
    ((exFresh 30000 30010).dnsServer.AddServiceRecord "_minecraft._tcp.survival"
        ("survival.example.com" ++ ":" ++ fmtInt ((25565 : Nat) : Int))).dnsHandler id
        [{ Name := "_minecraft._tcp.survival" ++ "." ++ "example.com.", Qtype := TypeSRV,
           Qclass := ClassINET }]
      = some { Rcode := RcodeSuccess
               Question := [{ Name := "_minecraft._tcp.survival" ++ "." ++ "example.com.",
                              Qtype := TypeSRV, Qclass := ClassINET }]
               Answer := [RR.SRV
                 { Name := "_minecraft._tcp.survival" ++ "." ++ "example.com.",
                   Rrtype := TypeSRV, Class := ClassINET, Ttl := 60 }
                 10 10 25565 "survival.example.com."] } :=
  dnsHandler_srv_answer id (exFresh 30000 30010).dnsServer "_minecraft._tcp.survival"
    "survival.example.com" 25565 ClassINET (by decide) (by decide) (by decide) (by decide)
    (by decide) (by decide)

/-! ## C10: the idle sweep -/

/-- C10, as stated, fails.  First: `survival` runs at `10.0.0.5`, was started at time `0`
and its provider refuses `Stop`; the pass at 6 min calls `provider.Stop` once, but the
records do not revert: they still name the backend.  Second: `alpha` and `beta` share the
sub-domain `survival`, `beta` was started at time `0` and `alpha` at 4 min; the pass at
6 min stops only `beta` (no `Stop` reaches the provider of `alpha`), and that flips the
records of `alpha`, whose last activity is two minutes old, to the decoy. -/
theorem checkServers_records_not_as_claimed :
    ((mapGet (exRefusedInput.checkServers (fun _ => false)).serverMap "survival").map
        (fun i => i.VM.state.stops),
      mapGet (exRefusedInput.checkServers (fun _ => false)).dnsServer.srvRecords
        "_minecraft._tcp.survival",
      mapGet (exRefusedInput.checkServers (fun _ => false)).dnsServer.aRecords "survival")
      = (some 1, some "survival.example.com:25565", some "10.0.0.5") ∧
    ((mapGet exSharedInput.serverMap "alpha").map (fun i => 6 * Minute - i.lastActivity),
      mapGet exSharedInput.dnsServer.srvRecords "_minecraft._tcp.survival",
      mapGet exSharedInput.dnsServer.aRecords "survival")
      = (some (2 * Minute), some "survival.example.com:25565", some "10.0.0.5") ∧
    ((mapGet (exSharedInput.checkServers (fun _ => false)).serverMap "alpha").map
        (fun i => i.VM.state.stops),
      mapGet (exSharedInput.checkServers (fun _ => false)).dnsServer.srvRecords
        "_minecraft._tcp.survival",
      mapGet (exSharedInput.checkServers (fun _ => false)).dnsServer.aRecords "survival")
      = (some 0, some "dispatch.example.com:30000", none) := by
  decide

/-- C10, amended.  Take a registered endpoint whose provider reports Running and whose
sub-domain no other registered endpoint uses.  If its `lastActivity` is older than five
minutes throughout the pass, one pass of `checkServers` calls `StopServer` for it:
`provider.Stop` is invoked (the provider has seen the two status queries and the `Stop`),
and the records revert to decoy routing when `provider.Stop` succeeds, while they stay as
they were when it fails.  If its `lastActivity` is at most five minutes old throughout the
pass, the pass neither calls `provider.Stop` (the provider has seen one status query and
nothing else) nor changes the endpoint's DNS records. -/
theorem checkServers_sweep {σ : Type} (ping : String → Bool) (w : DispatchWorker σ)
    (name : String) (info : MCServerInfo σ) (st : VmStatus)
    (hkeys : (mapKeys w.serverMap).Nodup)
    (hreg : mapGet w.serverMap name = some info)
    (hsep : ∀ m i, mapGet w.serverMap m = some i → m ≠ name →
      i.SubDomain ≠ info.SubDomain)
    (hst : info.VM.GetStatus.1 = Except.ok st) (hr : st.Status = VM_STATUS_RUNNING) :
    ((∀ k, w.clock k - info.lastActivity > 5 * Minute) →
      ∀ st2, info.VM.GetStatus.2.GetStatus.1 = Except.ok st2 →
        st2.Status = VM_STATUS_RUNNING →
        (mapGet (w.checkServers ping).serverMap name).map (fun i => i.VM)
          = some info.VM.GetStatus.2.GetStatus.2.Stop.2 ∧
        (info.VM.GetStatus.2.GetStatus.2.Stop.1 = none →
          mapGet (w.checkServers ping).dnsServer.srvRecords
              (GetMinecraftSrvRecord info.SubDomain)
            = some (w.GetDispatchServer ++ ":" ++ fmtInt info.fakeMcServer.port) ∧
          mapGet (w.checkServers ping).dnsServer.aRecords info.SubDomain = none) ∧
        (∀ err, info.VM.GetStatus.2.GetStatus.2.Stop.1 = some err →
          mapGet (w.checkServers ping).dnsServer.srvRecords
              (GetMinecraftSrvRecord info.SubDomain)
            = mapGet w.dnsServer.srvRecords (GetMinecraftSrvRecord info.SubDomain) ∧
          mapGet (w.checkServers ping).dnsServer.aRecords info.SubDomain
            = mapGet w.dnsServer.aRecords info.SubDomain)) ∧
    ((∀ k, w.clock k - info.lastActivity ≤ 5 * Minute) →
      (mapGet (w.checkServers ping).serverMap name).map (fun i => i.VM)
        = some info.VM.GetStatus.2 ∧
      mapGet (w.checkServers ping).dnsServer.srvRecords
          (GetMinecraftSrvRecord info.SubDomain)
        = mapGet w.dnsServer.srvRecords (GetMinecraftSrvRecord info.SubDomain) ∧
      mapGet (w.checkServers ping).dnsServer.aRecords info.SubDomain
        = mapGet w.dnsServer.aRecords info.SubDomain) := by
  obtain ⟨pre, post, hsplit⟩ := List.append_of_mem (mem_mapKeys_of_mapGet _ _ _ hreg)
  have hnd : name ∉ pre ++ post := by
    rw [hsplit] at hkeys
    exact (List.nodup_cons.1 (List.nodup_middle.1 hkeys)).1
  have hpre : name ∉ pre := fun h => hnd (List.mem_append_left _ h)
  have hpost : name ∉ post := fun h => hnd (List.mem_append_right _ h)
  have hfold : w.checkServers ping
      = post.foldl (DispatchWorker.checkServer ping)
          (DispatchWorker.checkServer ping (pre.foldl (DispatchWorker.checkServer ping) w)
            name) := by
    simp only [DispatchWorker.checkServers, hsplit, List.foldl_append, List.foldl_cons]
  obtain ⟨⟨ho1, hm1, ⟨d1, hc1⟩, hsrv1, ha1⟩, hs1⟩ :=
    checkServers_untouched ping name info.SubDomain pre hpre w hsep
  generalize pre.foldl (DispatchWorker.checkServer ping) w = w1 at *
  have hreg1 : mapGet w1.serverMap name = some info := hm1.trans hreg
  have hs2 : Separate name info.SubDomain (DispatchWorker.checkServer ping w1 name) :=
    Separate_of_framed (checkServer_framed ping w1 name) hs1
  obtain ⟨⟨_, hm3, _, hsrv3, ha3⟩, _⟩ :=
    checkServers_untouched ping name info.SubDomain post hpost _ hs2
  have hdisp : w1.GetDispatchServer = w.GetDispatchServer := by
    simp only [DispatchWorker.GetDispatchServer, ho1]
  rw [hfold, hm3, hsrv3, ha3]
  constructor
  · intro hidle st2 hst2 hr2
    have hidle1 : w1.clock 0 - info.lastActivity > 5 * Minute := by
      rw [hc1]
      exact hidle _
    obtain ⟨h1, h2, h3⟩ := checkServer_idle ping w1 name info hreg1 st st2 hst hr hst2 hr2 hidle1
    refine ⟨h1, ?_, ?_⟩
    · intro hnone
      rw [← hdisp]
      exact h2 hnone
    · intro err he
      rw [h3 err he]
      exact ⟨hsrv1, ha1⟩
  · intro hfresh
    have hfresh1 : ¬ w1.clock 0 - info.lastActivity > 5 * Minute := by
      rw [hc1]
      exact not_lt.2 (hfresh _)
    obtain ⟨h1, h2⟩ := checkServer_active ping w1 name info hreg1 st hst hr hfresh1
    rw [h2]
    exact ⟨h1, hsrv1, ha1⟩

/-- Witness for C10: `survival`, started at time `0`, swept at 6 min. -/
theorem checkServers_sweep_witness :
    (mapGet (exSweepInput.checkServers (fun _ => false)).serverMap "survival").map
        (fun i => i.VM)
      = some exSweepInfo.VM.GetStatus.2.GetStatus.2.Stop.2 ∧
    (exSweepInfo.VM.GetStatus.2.GetStatus.2.Stop.1 = none →
      mapGet (exSweepInput.checkServers (fun _ => false)).dnsServer.srvRecords
          (GetMinecraftSrvRecord exSweepInfo.SubDomain)
        = some (exSweepInput.GetDispatchServer ++ ":" ++
            fmtInt exSweepInfo.fakeMcServer.port) ∧
      mapGet (exSweepInput.checkServers (fun _ => false)).dnsServer.aRecords
        exSweepInfo.SubDomain = none) :=
  ⟨((checkServers_sweep (fun _ => false) exSweepInput "survival" exSweepInfo
      ⟨VM_STATUS_RUNNING, "10.0.0.5"⟩ (by decide) rfl
      (fun m i h hne => by
        exfalso
        apply hne
        by_contra hm
        simp [exSweepInput, afterStart, DispatchWorker.atTime, DispatchWorker.StartServer,
          exWorker, DispatchWorker.AddServer, DispatchWorker.installBackend, mapGet, mapSet,
          mapDel, exInfo, Ne.symm hm] at h)
      rfl rfl).1 (fun _ => (by decide : (6 * Minute : Int) - 0 > 5 * Minute)) ⟨VM_STATUS_RUNNING, "10.0.0.5"⟩ rfl rfl).1,
   ((checkServers_sweep (fun _ => false) exSweepInput "survival" exSweepInfo
      ⟨VM_STATUS_RUNNING, "10.0.0.5"⟩ (by decide) rfl
      (fun m i h hne => by
        exfalso
        apply hne
        by_contra hm
        simp [exSweepInput, afterStart, DispatchWorker.atTime, DispatchWorker.StartServer,
          exWorker, DispatchWorker.AddServer, DispatchWorker.installBackend, mapGet, mapSet,
          mapDel, exInfo, Ne.symm hm] at h)
      rfl rfl).1 (fun _ => (by decide : (6 * Minute : Int) - 0 > 5 * Minute)) ⟨VM_STATUS_RUNNING, "10.0.0.5"⟩ rfl rfl).2.1⟩

/-! ## C11: `StopServer` on a stopped backend -/

theorem mapDel_mapDel {κ β : Type} [DecidableEq κ] (m : GoMap κ β) (k : κ) :
    mapDel (mapDel m k) k = mapDel m k := by
  induction m with
  | nil => rfl
  | cons e rest ih =>
    obtain ⟨a, v⟩ := e
    by_cases ha : a = k
    · simp [mapDel, ha, ih]
    · simp [mapDel, ha, ih]

theorem mapSet_mapSet {κ β : Type} [DecidableEq κ] (m : GoMap κ β) (k : κ) (v : β) :
    mapSet (mapSet m k v) k v = mapSet m k v := by
  simp [mapSet, mapDel, mapDel_mapDel]

/-- The record update of `StopServer` (lines 135-139), applied to a server that already
went through it, changes nothing. -/
theorem decoy_update_twice (s : DnsServer) (key value name : String) :
    ((((s.AddServiceRecord key value).RemoveARecord name).AddServiceRecord key
        value).RemoveARecord name)
      = (s.AddServiceRecord key value).RemoveARecord name := by
  simp [DnsServer.AddServiceRecord, DnsServer.RemoveARecord, mapSet_mapSet, mapDel_mapDel]

/-- Whatever the provider answers, `StopServer` either leaves the DNS server alone or
applies the decoy update of the registered endpoint to it. -/
theorem StopServer_dnsServer {σ : Type} (w : DispatchWorker σ) (name : String)
    (info : MCServerInfo σ) (hreg : mapGet w.serverMap name = some info) :
    (w.StopServer name).2.dnsServer = w.dnsServer ∨
    (w.StopServer name).2.dnsServer
      = (w.dnsServer.AddServiceRecord (GetMinecraftSrvRecord info.SubDomain)
          (w.GetDispatchServer ++ ":" ++ fmtInt info.fakeMcServer.port)).RemoveARecord
          info.SubDomain := by
  simp only [DispatchWorker.StopServer, hreg]
  rcases hg : info.VM.GetStatus with ⟨_ | status, vm1⟩
  · exact Or.inl rfl
  · simp only
    rcases hs : (if status.Status = VM_STATUS_RUNNING then vm1.Stop else (none, vm1))
      with ⟨_ | err, vm2⟩
    · exact Or.inr rfl
    · exact Or.inl rfl

/-- C11.  For a registered endpoint whose provider reports Stopped, `StopServer` returns
no error, does not call `provider.Stop` (the provider has seen the status query and
nothing else), and leaves the service-location record at
`<dispatcher host>:<decoy port>` with no address record for the endpoint; a second
`StopServer` right after it leaves exactly the record tables of the first. -/
theorem StopServer_stopped {σ : Type} (w : DispatchWorker σ) (name : String)
    (info : MCServerInfo σ) (status : VmStatus)
    (hreg : mapGet w.serverMap name = some info)
    (hstatus : info.VM.GetStatus.1 = Except.ok status)
    (hstopped : status.Status = VM_STATUS_STOPPED) :
    (w.StopServer name).1 = none ∧
    (mapGet (w.StopServer name).2.serverMap name).map (fun i => i.VM)
      = some info.VM.GetStatus.2 ∧
    mapGet (w.StopServer name).2.dnsServer.srvRecords (GetMinecraftSrvRecord info.SubDomain)
      = some (w.GetDispatchServer ++ ":" ++ fmtInt info.fakeMcServer.port) ∧
    mapGet (w.StopServer name).2.dnsServer.aRecords info.SubDomain = none ∧
    ((w.StopServer name).2.StopServer name).2.dnsServer.srvRecords
      = (w.StopServer name).2.dnsServer.srvRecords ∧
    ((w.StopServer name).2.StopServer name).2.dnsServer.aRecords
      = (w.StopServer name).2.dnsServer.aRecords := by
  have hpair : info.VM.GetStatus = (Except.ok status, info.VM.GetStatus.2) := by
    rw [← hstatus]
  have hnot : ¬ status.Status = VM_STATUS_RUNNING := by
    rw [hstopped]
    decide
  have hfirst : w.StopServer name
      = (none,
          { w with
            dnsServer := ((w.dnsServer.AddServiceRecord
              (GetMinecraftSrvRecord info.SubDomain)
              (w.GetDispatchServer ++ ":" ++ fmtInt info.fakeMcServer.port)).RemoveARecord
              info.SubDomain)
            serverMap := mapSet w.serverMap name { info with VM := info.VM.GetStatus.2 } }) := by
    simp only [DispatchWorker.StopServer, hreg]
    rw [hpair]
    simp only [hnot, if_false]
  have hreg2 : mapGet (w.StopServer name).2.serverMap name
      = some { info with VM := info.VM.GetStatus.2 } := by
    rw [hfirst]
    simp [mapGet_mapSet]
  have hsecond := StopServer_dnsServer (w.StopServer name).2 name _ hreg2
  have htwice : ((w.StopServer name).2.StopServer name).2.dnsServer
      = (w.StopServer name).2.dnsServer := by
    rcases hsecond with h | h
    · exact h
    · rw [h, hfirst]
      exact decoy_update_twice _ _ _ _
  refine ⟨by rw [hfirst], by rw [hfirst]; simp [mapGet_mapSet], ?_, ?_, by rw [htwice],
    by rw [htwice]⟩
  · rw [hfirst]
    simp [DnsServer.AddServiceRecord, DnsServer.RemoveARecord, mapGet_mapSet]
  · rw [hfirst]
    simp [DnsServer.AddServiceRecord, DnsServer.RemoveARecord, mapGet_mapDel]

/-- Witness for C11: `survival`, just registered, with a provider that reports Stopped. -/
theorem StopServer_stopped_witness :
    ((exWorker 30000 30010 [exInfo "survival" "survival"
        (simVm [⟨VM_STATUS_STOPPED, ""⟩] none)]).StopServer "survival").1 = none ∧
    mapGet ((exWorker 30000 30010 [exInfo "survival" "survival"
        (simVm [⟨VM_STATUS_STOPPED, ""⟩] none)]).StopServer
          "survival").2.dnsServer.srvRecords (GetMinecraftSrvRecord "survival")
      = some ((exWorker 30000 30010 [exInfo "survival" "survival"
          (simVm [⟨VM_STATUS_STOPPED, ""⟩] none)]).GetDispatchServer ++ ":" ++
            fmtInt 30000) :=
  ⟨(StopServer_stopped
      (exWorker 30000 30010 [exInfo "survival" "survival"
        (simVm [⟨VM_STATUS_STOPPED, ""⟩] none)])
      "survival"
      { exInfo "survival" "survival" (simVm [⟨VM_STATUS_STOPPED, ""⟩] none) with
        fakeMcServer := ⟨30000⟩ }
      ⟨VM_STATUS_STOPPED, ""⟩ rfl rfl rfl).1,
   (StopServer_stopped
      (exWorker 30000 30010 [exInfo "survival" "survival"
        (simVm [⟨VM_STATUS_STOPPED, ""⟩] none)])
      "survival"
      { exInfo "survival" "survival" (simVm [⟨VM_STATUS_STOPPED, ""⟩] none) with
        fakeMcServer := ⟨30000⟩ }
      ⟨VM_STATUS_STOPPED, ""⟩ rfl rfl rfl).2.2.1⟩

/-! ## C12: error returns of `StartServer` and `StopServer` -/

/-- The polling loop times out: the polls `0..k` all see a status other than Running, the
clock readings after the polls before `k` are within a minute of `startTime`, and the
reading after poll `k` is more than a minute after it. -/
theorem waitForRunning_timeout {σ : Type} (startTime : Time) (k : Nat) :
    ∀ (fuel : Nat) (vm : VmProvider σ) (clock : Clock), k < fuel →
      (∀ j, j ≤ k → ∃ s, (pollState vm j).GetStatus.1 = Except.ok s ∧
        s.Status ≠ VM_STATUS_RUNNING) →
      (∀ j, j < k → clock j - startTime ≤ 1 * Minute) →
      clock k - startTime > 1 * Minute →
      (waitForRunning startTime fuel vm clock).map Prod.fst
        = some (some "server failed to start") := by
  induction k with
  | zero =>
    intro fuel vm clock hf hpoll _ hlast
    obtain ⟨f, rfl⟩ : ∃ f, fuel = f + 1 := ⟨fuel - 1, by omega⟩
    obtain ⟨s, hs, hns⟩ := hpoll 0 (le_refl _)
    have hpair : vm.GetStatus = (Except.ok s, vm.GetStatus.2) := Prod.ext hs rfl
    simp only [waitForRunning]
    rw [hpair]
    simp only [hns, if_false, hlast, if_true]
    rfl
  | succ k ih =>
    intro fuel vm clock hf hpoll hwait hlast
    obtain ⟨f, rfl⟩ : ∃ f, fuel = f + 1 := ⟨fuel - 1, by omega⟩
    obtain ⟨s, hs, hns⟩ := hpoll 0 (Nat.zero_le _)
    have hpair : vm.GetStatus = (Except.ok s, vm.GetStatus.2) := Prod.ext hs rfl
    have h0 : ¬ clock 0 - startTime > 1 * Minute := not_lt.2 (hwait 0 (Nat.succ_pos _))
    simp only [waitForRunning]
    rw [hpair]
    simp only [hns, if_false, h0]
    exact ih f vm.GetStatus.2 clock.next (by omega)
      (fun j hj => hpoll (j + 1) (by omega))
      (fun j hj => hwait (j + 1) (by omega))
      hlast

/-- The polling loop passes on the provider's error: the polls before `k` see a status
other than Running within the minute, and poll `k` fails. -/
theorem waitForRunning_poll_error {σ : Type} (startTime : Time) (err : String) (k : Nat) :
    ∀ (fuel : Nat) (vm : VmProvider σ) (clock : Clock), k < fuel →
      (∀ j, j < k → ∃ s, (pollState vm j).GetStatus.1 = Except.ok s ∧
        s.Status ≠ VM_STATUS_RUNNING) →
      (∀ j, j < k → clock j - startTime ≤ 1 * Minute) →
      (pollState vm k).GetStatus.1 = Except.error err →
      (waitForRunning startTime fuel vm clock).map Prod.fst = some (some err) := by
  induction k with
  | zero =>
    intro fuel vm clock hf _ _ hlast
    obtain ⟨f, rfl⟩ : ∃ f, fuel = f + 1 := ⟨fuel - 1, by omega⟩
    have hpair : vm.GetStatus = (Except.error err, vm.GetStatus.2) := Prod.ext hlast rfl
    simp only [waitForRunning]
    rw [hpair]
    rfl
  | succ k ih =>
    intro fuel vm clock hf hpoll hwait hlast
    obtain ⟨f, rfl⟩ : ∃ f, fuel = f + 1 := ⟨fuel - 1, by omega⟩
    obtain ⟨s, hs, hns⟩ := hpoll 0 (Nat.succ_pos _)
    have hpair : vm.GetStatus = (Except.ok s, vm.GetStatus.2) := Prod.ext hs rfl
    have h0 : ¬ clock 0 - startTime > 1 * Minute := not_lt.2 (hwait 0 (Nat.succ_pos _))
    simp only [waitForRunning]
    rw [hpair]
    simp only [hns, if_false, h0]
    exact ih f vm.GetStatus.2 clock.next (by omega)
      (fun j hj => hpoll (j + 1) (by omega))
      (fun j hj => hwait (j + 1) (by omega))
      hlast

/-- An error return of `StartServer` hands back the worker with its DNS server and the
endpoint's `lastActivity` as they were. -/
theorem StartServer_error_keeps {σ : Type} (fuel : Nat) (w w' : DispatchWorker σ)
    (name err : String) (h : w.StartServer fuel name = some (some err, w')) :
    w'.dnsServer = w.dnsServer ∧
    ∀ info, mapGet w.serverMap name = some info →
      (mapGet w'.serverMap name).map (fun i => i.lastActivity) = some info.lastActivity := by
  unfold DispatchWorker.StartServer at h
  cases hreg : mapGet w.serverMap name with
  | none =>
    simp only [hreg, Option.some.injEq, Prod.mk.injEq] at h
    obtain ⟨_, rfl⟩ := h
    exact ⟨rfl, fun info hi => by simp [hreg] at hi⟩
  | some info =>
    simp only [hreg] at h
    rcases hg : info.VM.GetStatus with ⟨e | status, vm1⟩
    · simp only [hg, Option.some.injEq, Prod.mk.injEq] at h
      obtain ⟨_, rfl⟩ := h
      exact ⟨rfl, fun i hi => by simp at hi; subst hi; simp [mapGet_mapSet]⟩
    · simp only [hg] at h
      by_cases hs : status.Status = VM_STATUS_STOPPED
      · simp only [hs, if_true] at h
        rcases hst : vm1.Start with ⟨_ | e, vm2⟩
        · simp only [hst] at h
          rcases hw : waitForRunning (w.clock 0) fuel vm2 w.clock.next
            with _ | ⟨_ | e, vm3, clock3⟩
          · simp [hw] at h
          · simp [hw] at h
          · simp only [hw, Option.some.injEq, Prod.mk.injEq] at h
            obtain ⟨_, rfl⟩ := h
            exact ⟨rfl, fun i hi => by simp at hi; subst hi; simp [mapGet_mapSet]⟩
        · simp only [hst, Option.some.injEq, Prod.mk.injEq] at h
          obtain ⟨_, rfl⟩ := h
          exact ⟨rfl, fun i hi => by simp at hi; subst hi; simp [mapGet_mapSet]⟩
      · simp [hs] at h

/-- The result of `StartServer` once the provider has reported Stopped and accepted
`Start`: that of the polling loop, when the loop ends with an error. -/
theorem StartServer_of_loop_error {σ : Type} (fuel : Nat) (w : DispatchWorker σ)
    (name : String) (info : MCServerInfo σ) (st : VmStatus) (err : String)
    (hreg : mapGet w.serverMap name = some info)
    (hst : info.VM.GetStatus.1 = Except.ok st) (hs : st.Status = VM_STATUS_STOPPED)
    (hstart : info.VM.GetStatus.2.Start.1 = none)
    (hloop : (waitForRunning (w.clock 0) fuel info.VM.GetStatus.2.Start.2 w.clock.next).map
      Prod.fst = some (some err)) :
    (w.StartServer fuel name).map Prod.fst = some (some err) := by
  have hpair : info.VM.GetStatus = (Except.ok st, info.VM.GetStatus.2) := Prod.ext hst rfl
  have hpair2 : info.VM.GetStatus.2.Start = (none, info.VM.GetStatus.2.Start.2) :=
    Prod.ext hstart rfl
  simp only [DispatchWorker.StartServer, hreg]
  rw [hpair]
  simp only [hs, if_true]
  rw [hpair2]
  simp only
  rcases hw : waitForRunning (w.clock 0) fuel info.VM.GetStatus.2.Start.2 w.clock.next
    with _ | ⟨_ | e, vm3, clock3⟩
  · simp [hw] at hloop
  · simp [hw] at hloop
  · simp only [hw, Option.map_some', Option.some.injEq] at hloop
    simp [hloop]

/-- C12.  `StartServer` and `StopServer` return the "server not found" error for a name
that is not in the registry; `StartServer` returns the provider's error when `GetStatus`
fails (at the first query or at a poll) or `Start` fails, and the "server failed to start"
error when the polls after `Start` have not seen Running by the time the clock is more
than one minute past the start of the wait; and every error return of `StartServer`
leaves the service-location table, the address table and the endpoint's `lastActivity`
exactly as they were before the call. -/
theorem StartServer_error_returns :
    (∀ (σ : Type) (w : DispatchWorker σ) (name : String) (fuel : Nat),
      mapGet w.serverMap name = none →
      w.StartServer fuel name = some (some "server not found", w) ∧
      w.StopServer name = (some "server not found", w)) ∧
    (∀ (σ : Type) (w : DispatchWorker σ) (name : String) (info : MCServerInfo σ)
        (err : String) (fuel : Nat),
      mapGet w.serverMap name = some info →
      info.VM.GetStatus.1 = Except.error err →
      (w.StartServer fuel name).map Prod.fst = some (some err)) ∧
    (∀ (σ : Type) (w : DispatchWorker σ) (name : String) (info : MCServerInfo σ)
        (st : VmStatus) (err : String) (fuel : Nat),
      mapGet w.serverMap name = some info →
      info.VM.GetStatus.1 = Except.ok st → st.Status = VM_STATUS_STOPPED →
      info.VM.GetStatus.2.Start.1 = some err →
      (w.StartServer fuel name).map Prod.fst = some (some err)) ∧
    (∀ (σ : Type) (w : DispatchWorker σ) (name : String) (info : MCServerInfo σ)
        (st : VmStatus) (err : String) (k fuel : Nat),
      mapGet w.serverMap name = some info →
      info.VM.GetStatus.1 = Except.ok st → st.Status = VM_STATUS_STOPPED →
      info.VM.GetStatus.2.Start.1 = none → k < fuel →
      (∀ j, j < k → ∃ s, (pollState info.VM.GetStatus.2.Start.2 j).GetStatus.1 = Except.ok s ∧
        s.Status ≠ VM_STATUS_RUNNING) →
      (∀ j, j < k → w.clock (j + 1) - w.clock 0 ≤ 1 * Minute) →
      (pollState info.VM.GetStatus.2.Start.2 k).GetStatus.1 = Except.error err →
      (w.StartServer fuel name).map Prod.fst = some (some err)) ∧
    (∀ (σ : Type) (w : DispatchWorker σ) (name : String) (info : MCServerInfo σ)
        (st : VmStatus) (k fuel : Nat),
      mapGet w.serverMap name = some info →
      info.VM.GetStatus.1 = Except.ok st → st.Status = VM_STATUS_STOPPED →
      info.VM.GetStatus.2.Start.1 = none → k < fuel →
      (∀ j, j ≤ k → ∃ s, (pollState info.VM.GetStatus.2.Start.2 j).GetStatus.1 = Except.ok s ∧
        s.Status ≠ VM_STATUS_RUNNING) →
      (∀ j, j < k → w.clock (j + 1) - w.clock 0 ≤ 1 * Minute) →
      w.clock (k + 1) - w.clock 0 > 1 * Minute →
      (w.StartServer fuel name).map Prod.fst = some (some "server failed to start")) ∧
    (∀ (σ : Type) (w w' : DispatchWorker σ) (name err : String) (fuel : Nat),
      w.StartServer fuel name = some (some err, w') →
      w'.dnsServer.srvRecords = w.dnsServer.srvRecords ∧
      w'.dnsServer.aRecords = w.dnsServer.aRecords ∧
      ∀ info, mapGet w.serverMap name = some info →
        (mapGet w'.serverMap name).map (fun i => i.lastActivity)
          = some info.lastActivity) := by
  refine ⟨?_, ?_, ?_, ?_, ?_, ?_⟩
  · intro σ w name fuel hreg
    simp [DispatchWorker.StartServer, DispatchWorker.StopServer, hreg]
  · intro σ w name info err fuel hreg herr
    have hpair : info.VM.GetStatus = (Except.error err, info.VM.GetStatus.2) :=
      Prod.ext herr rfl
    simp only [DispatchWorker.StartServer, hreg]
    rw [hpair]
    rfl
  · intro σ w name info st err fuel hreg hst hs hstart
    have hpair : info.VM.GetStatus = (Except.ok st, info.VM.GetStatus.2) := Prod.ext hst rfl
    have hpair2 : info.VM.GetStatus.2.Start = (some err, info.VM.GetStatus.2.Start.2) :=
      Prod.ext hstart rfl
    simp only [DispatchWorker.StartServer, hreg]
    rw [hpair]
    simp only [hs, if_true]
    rw [hpair2]
    rfl
  · intro σ w name info st err k fuel hreg hst hs hstart hk hpoll hwait hlast
    exact StartServer_of_loop_error fuel w name info st err hreg hst hs hstart
      (waitForRunning_poll_error (w.clock 0) err k fuel _ _ hk hpoll hwait hlast)
  · intro σ w name info st k fuel hreg hst hs hstart hk hpoll hwait hlast
    exact StartServer_of_loop_error fuel w name info st _ hreg hst hs hstart
      (waitForRunning_timeout (w.clock 0) k fuel _ _ hk hpoll hwait hlast)
  · intro σ w w' name err fuel h
    obtain ⟨h1, h2⟩ := StartServer_error_keeps fuel w w' name err h
    exact ⟨by rw [h1], by rw [h1], h2⟩

/-- Witness for C12: on a clock that advances by 30 s with every reading, a provider that
reports Stopped, accepts `Start` and then reports Starting for ever makes `StartServer`
give up at the third poll. -/
theorem StartServer_error_returns_witness :
    (exSlowInput.StartServer 5 "survival").map Prod.fst
      = some (some "server failed to start") :=
  StartServer_error_returns.2.2.2.2.1 SimVm exSlowInput "survival" exSlowInfo
    ⟨VM_STATUS_STOPPED, ""⟩ 2 5 rfl rfl rfl rfl (by decide)
    (fun j hj => by
      interval_cases j <;> exact ⟨⟨VM_STATUS_STARTING, ""⟩, rfl, by decide⟩)
    (fun j hj => by interval_cases j <;> decide)
    (by decide)

/-! ## C13: the dispatcher host resolves -/

theorem AddServer_keeps_config {σ : Type} (w : DispatchWorker σ) (info : MCServerInfo σ) :
    (w.AddServer info).dnsServer.rootDomain = w.dnsServer.rootDomain ∧
    (w.AddServer info).dnsServer.ttl = w.dnsServer.ttl ∧
    (w.AddServer info).options = w.options :=
  ⟨rfl, rfl, rfl⟩

theorem AddServer_foldl_keeps_config {σ : Type} (infos : List (MCServerInfo σ)) :
    ∀ w : DispatchWorker σ,
      (infos.foldl DispatchWorker.AddServer w).dnsServer.rootDomain = w.dnsServer.rootDomain ∧
      (infos.foldl DispatchWorker.AddServer w).dnsServer.ttl = w.dnsServer.ttl ∧
      (infos.foldl DispatchWorker.AddServer w).options = w.options := by
  induction infos with
  | nil => intro w; exact ⟨rfl, rfl, rfl⟩
  | cons info rest ih =>
    intro w
    obtain ⟨h1, h2, h3⟩ := ih (w.AddServer info)
    obtain ⟨g1, g2, g3⟩ := AddServer_keeps_config w info
    exact ⟨h1.trans g1, h2.trans g2, h3.trans g3⟩

/-- The dot-terminated dispatcher host is `dispatch.<rootDomain>` for the root domain as
`NewDnsServer` normalises it. -/
theorem dispatchTarget_eq {σ : Type} (w : DispatchWorker σ) (c : Char)
    (hlast : lastByte w.options.RootDomain = some c)
    (hroot : w.dnsServer.rootDomain
      = if c ≠ '.' then w.options.RootDomain ++ "." else w.options.RootDomain) :
    w.dispatchTarget = "dispatch" ++ "." ++ w.dnsServer.rootDomain := by
  have hne : w.options.RootDomain.data ≠ [] := by
    intro e
    simp [lastByte, e] at hlast
  have hl : lastByte w.GetDispatchServer = some c := by
    simp only [lastByte, DispatchWorker.GetDispatchServer, String.data_append] at hlast ⊢
    rw [List.getLast?_append_of_ne_nil _ hne]
    exact hlast
  have hd : ("dispatch" : String) ++ "." = "dispatch." := by decide
  unfold DispatchWorker.dispatchTarget
  by_cases hc : c = '.'
  · subst hc
    rw [if_pos hl, hroot]
    simp only [ne_eq, not_true_eq_false, if_false, DispatchWorker.GetDispatchServer, hd]
  · have hl2 : lastByte w.GetDispatchServer ≠ some '.' := by
      rw [hl]
      simpa using hc
    rw [if_neg hl2, hroot]
    simp only [ne_eq, hc, not_false_eq_true, if_true, DispatchWorker.GetDispatchServer, hd,
      String.append_assoc]

theorem NewDispatchWorker_of_lastByte {σ : Type} (options : DispatchWorkerOptions)
    (clock : Clock) (c : Char) (hc : lastByte options.RootDomain = some c) :
    ∃ w0 : DispatchWorker σ, NewDispatchWorker options clock = some w0 ∧
      w0.options = options ∧ w0.dnsServer.ttl = options.DnsTtl ∧
      w0.dnsServer.rootDomain
        = if c ≠ '.' then options.RootDomain ++ "." else options.RootDomain := by
  simp [NewDispatchWorker, NewDnsServer, hc]

/-- C13.  For a worker configured with a non-empty root domain `R`, with or without a
trailing dot, and public IP `P`: after the registrations and `Start`, the host name that
decoy service-location answers advertise as their target (`GetDispatchServer()`,
dot-terminated: `dispatch.<R>.` when `R` has no trailing dot) resolves.  The key
`dnsHandler` derives from that name is `dispatch`, the key `Start` stores, and the
single-question `A` query for the name is answered with exactly one `A` record, which
carries `net.ParseIP(P)`. -/
theorem Start_dispatcher_resolvable {σ ι : Type} (ParseIP : String → ι)
    (options : DispatchWorkerOptions) (clock : Clock) (infos : List (MCServerInfo σ))
    (qclass : Nat) (hR : options.RootDomain ≠ "") :
    ∃ w0 : DispatchWorker σ, NewDispatchWorker options clock = some w0 ∧
      (lastByte options.RootDomain ≠ some '.' →
        (infos.foldl DispatchWorker.AddServer w0).Start.dispatchTarget
          = "dispatch." ++ options.RootDomain ++ ".") ∧
      (lastByte options.RootDomain = some '.' →
        (infos.foldl DispatchWorker.AddServer w0).Start.dispatchTarget
          = "dispatch." ++ options.RootDomain) ∧
      recordKey (infos.foldl DispatchWorker.AddServer w0).Start.dnsServer
        (infos.foldl DispatchWorker.AddServer w0).Start.dispatchTarget = "dispatch" ∧
      (infos.foldl DispatchWorker.AddServer w0).Start.dnsServer.dnsHandler ParseIP
          [{ Name := (infos.foldl DispatchWorker.AddServer w0).Start.dispatchTarget,
             Qtype := TypeA, Qclass := qclass }]
        = some
          { Rcode := RcodeSuccess
            Question :=
              [{ Name := (infos.foldl DispatchWorker.AddServer w0).Start.dispatchTarget,
                 Qtype := TypeA, Qclass := qclass }]
            Answer := [RR.A
              { Name := (infos.foldl DispatchWorker.AddServer w0).Start.dispatchTarget,
                Rrtype := TypeA, Class := ClassINET,
                Ttl := (options.DnsTtl % 4294967296).toNat }
              (ParseIP options.PublicIp)] } := by
  obtain ⟨c, hc⟩ : ∃ c, lastByte options.RootDomain = some c := by
    cases hd : options.RootDomain.data with
    | nil => exact absurd (String.ext hd) hR
    | cons x xs =>
      have := List.getLast?_isSome.2 (List.cons_ne_nil x xs)
      rw [← hd] at this
      exact Option.isSome_iff_exists.1 this
  obtain ⟨w0, hnew, ho0, ht0, hr0⟩ := NewDispatchWorker_of_lastByte (σ := σ) options clock c hc
  refine ⟨w0, hnew, ?_⟩
  · obtain ⟨h1, h2, h3⟩ := AddServer_foldl_keeps_config infos w0
    have ha : mapGet (infos.foldl DispatchWorker.AddServer w0).Start.dnsServer.aRecords
        "dispatch" = some options.PublicIp := by
      simp only [DispatchWorker.Start, DnsServer.AddARecord, mapGet_mapSet, if_true]
      rw [h3, ho0]
    have hopt0 : (infos.foldl DispatchWorker.AddServer w0).Start.options = options :=
      h3.trans ho0
    have httl0 : (infos.foldl DispatchWorker.AddServer w0).Start.dnsServer.ttl
        = options.DnsTtl := h2.trans ht0
    have hroot0 : (infos.foldl DispatchWorker.AddServer w0).Start.dnsServer.rootDomain
        = if c ≠ '.' then options.RootDomain ++ "." else options.RootDomain :=
      h1.trans hr0
    generalize (infos.foldl DispatchWorker.AddServer w0).Start = w at ha hopt0 httl0 hroot0 ⊢
    have hopt : w.options = options := hopt0
    have httl : w.dnsServer.ttl = options.DnsTtl := httl0
    have hroot : w.dnsServer.rootDomain
        = if c ≠ '.' then w.options.RootDomain ++ "." else w.options.RootDomain := by
      rw [hopt]
      exact hroot0
    have hlast : lastByte w.options.RootDomain = some c := by rw [hopt]; exact hc
    have htarget := dispatchTarget_eq w c hlast hroot
    have hdot : lastByte w.dnsServer.rootDomain = some '.' := by
      rw [hroot, hopt]
      by_cases hcd : c = '.'
      · simpa [hcd] using hc
      · simp [hcd, lastByte, String.data_append]
    have hkey : recordKey w.dnsServer w.dispatchTarget = "dispatch" := by
      rw [htarget]
      exact recordKey_join w.dnsServer "dispatch" hdot
    have hlen : ¬ w.dispatchTarget.length ≤ w.dnsServer.rootDomain.length := by
      rw [htarget]
      exact recordName_longer w.dnsServer "dispatch"
    refine ⟨?_, ?_, hkey, ?_⟩
    · intro hnd
      have hcd : c ≠ '.' := fun e => hnd (by rw [hc, e])
      have hd : ("dispatch." : String) = "dispatch" ++ "." := by decide
      rw [htarget, hroot, hopt, hd]
      simp only [ne_eq, hcd, not_false_eq_true, if_true, String.append_assoc]
    · intro hd1
      have hcd : c = '.' := Option.some.inj (hc.symm.trans hd1)
      have hd : ("dispatch." : String) = "dispatch" ++ "." := by decide
      rw [htarget, hroot, hopt, hd]
      simp only [ne_eq, hcd, not_true_eq_false, if_false]
    · have hA : TypeA ≠ TypeSRV := by decide
      simp only [DnsServer.dnsHandler, SetReply, hlen, if_false, hkey, hA, ha, httl,
        if_true]
      simp [RcodeSuccess]

/-- Witness for C13: the worker of the worked examples, root domain `example.com`,
public IP `203.0.113.7`. -/
theorem Start_dispatcher_resolvable_witness :
    ∃ w0 : DispatchWorker SimVm,
      NewDispatchWorker (exOptions 30000 30010) (fun _ => 0) = some w0 ∧
      recordKey w0.Start.dnsServer w0.Start.dispatchTarget = "dispatch" ∧
      w0.Start.dnsServer.dnsHandler id
          [{ Name := w0.Start.dispatchTarget, Qtype := TypeA, Qclass := ClassINET }]
        = some
          { Rcode := RcodeSuccess
            Question :=
              [{ Name := w0.Start.dispatchTarget, Qtype := TypeA, Qclass := ClassINET }]
            Answer := [RR.A
              { Name := w0.Start.dispatchTarget, Rrtype := TypeA, Class := ClassINET,
                Ttl := (((exOptions 30000 30010).DnsTtl) % 4294967296).toNat }
              "203.0.113.7"] } := by
  obtain ⟨w0, h0, _, _, h3, h4⟩ :=
    Start_dispatcher_resolvable (σ := SimVm) id (exOptions 30000 30010) (fun _ => 0) []
      ClassINET (by decide)
  exact ⟨w0, h0, h3, h4⟩

end DynMc
